import Mathlib

/-!
Verification of the FoodieSpot restaurant agent.

This file embeds, as executable Lean definitions, the parts of the
repository that the specification talks about:

* `intent_restaurant_booking.py` — the recommendation engine
  (`get_recommendations` with its mood derivation, constraint-relaxation
  cascade and three-pass ranking), the booking tool (`book_restaurant`)
  and the validation tool (`validate_booking_info`);
* `tool_pattern/tool_agent.py` — the tool dispatcher
  (`process_tool_calls`) and the reminder injection in `run`.

Python values that can be `None`, an `int` or a `str` are embedded as the
inductive `AVal`; Python truthiness and `int(...)` coercion are embedded
explicitly.  Database queries are embedded as filters over an explicit
list of restaurant rows; the SQL parameter lists built by
`get_recommendations` are embedded as explicit clause/parameter lists so
that the parameter-filtering done by the relaxation code
(`[p for p in params if p != mood]`) is modelled faithfully, including
the failure mode where a parameter-count mismatch makes the database
driver raise.
-/

namespace FoodieSpot

/-- A Python value that may be `None`, an `int`, or a `str`. -/
inductive AVal where
  | non : AVal
  | i : Int → AVal
  | s : String → AVal
deriving DecidableEq, Repr

/-- Python truthiness for `AVal`: `None`, `0` and `""` are falsy. -/
def AVal.truthy : AVal → Bool
  | .non => false
  | .i n => n ≠ 0
  | .s v => v ≠ ""

/-- Python `str.lower()` (ASCII). -/
def strLower (v : String) : String := String.mk (v.toList.map Char.toLower)

/-- Parse a nonempty all-digit character list as a natural number. -/
def parseNatDigits (t : List Char) : Option Nat :=
  if t ≠ [] && t.all Char.isDigit then
    some (t.foldl (fun a c => a * 10 + (c.toNat - 48)) 0)
  else
    none

/-- Python `int(s)` on a string: optional surrounding whitespace, optional
sign, then decimal digits; `none` when Python would raise `ValueError`. -/
def pyInt (v : String) : Option Int :=
  let t := ((v.toList.dropWhile (·.isWhitespace)).reverse.dropWhile (·.isWhitespace)).reverse
  match t with
  | '-' :: rest => (parseNatDigits rest).map (fun n => -(n : Int))
  | '+' :: rest => (parseNatDigits rest).map (fun n => (n : Int))
  | _ => (parseNatDigits t).map (fun n => (n : Int))

/-- Python `int(x)` on an `AVal`: `None` raises `TypeError`,
an unparsable string raises `ValueError`; both are `none` here. -/
def AVal.toInt : AVal → Option Int
  | .non => none
  | .i n => some n
  | .s v => pyInt v

/-- Python truthiness for an optional string (`None` and `""` are falsy). -/
def optTruthy : Option String → Bool
  | none => false
  | some v => v ≠ ""

/-- Python substring membership `needle in hay`. -/
def subStr (needle hay : String) : Bool :=
  decide (needle.toList <:+: hay.toList)

/-- Lexicographic `≤` on character lists by code point, the order Python
`sorted` uses for strings. -/
def listLexLe : List Char → List Char → Bool
  | [], _ => true
  | _ :: _, [] => false
  | a :: as, b :: bs =>
    if a.toNat < b.toNat then true
    else if b.toNat < a.toNat then false
    else listLexLe as bs

/-- Python string `≤`. -/
def strLeB (a b : String) : Bool := listLexLe a.toList b.toList

/-- Python `sorted` on a list of strings. -/
def sortedStrings (l : List String) : List String :=
  List.insertionSort (fun a b => strLeB a b = true) l

/-- One restaurant row of the `restaurants` table. -/
structure Restaurant where
  rid : Nat
  name : String
  city : String
  address : String
  cuisine : String
  seating_capacity : Int
  available_capacity : Int
  available_reservations : List String
  mood : String
deriving DecidableEq, Repr

/-! ## Stable descending sort (Python `list.sort(key=…, reverse=True)`)

Python's `list.sort` is stable; with `reverse=True` it orders by the key
descending and keeps the original relative order of elements with equal
keys.  `insertDescBy`/`sortDescBy` implement exactly that: an element is
inserted in front of the first element whose key is `≤` its own, so an
earlier element precedes later elements with the same key. -/

def insertDescBy (key : α → Nat) (x : α) : List α → List α
  | [] => [x]
  | y :: ys => if key y ≤ key x then x :: y :: ys else y :: insertDescBy key x ys

def sortDescBy (key : α → Nat) : List α → List α
  | [] => []
  | x :: xs => insertDescBy key x (sortDescBy key xs)

/-! ## Mood derivation (`get_recommendations`, lines 384–399)

The occasion→mood table is a Python dict iterated in insertion
(declaration) order; the first key contained in the lowercased occasion
wins. -/

/-- The `mood_mapping` table, in declaration order. -/
def moodMapping : List (String × String) :=
  [("date", "romantic"), ("business", "sophisticated"), ("family", "casual"),
   ("friends", "casual"), ("celebration", "lively")]

/-- Derived mood: first table key (in declaration order) contained in the
lowercased occasion string. -/
def deriveMood (occasion : String) : Option String :=
  (moodMapping.find? (fun kv => subStr kv.1 (strLower occasion))).map (·.2)

/-- Written from the claim text, for comparison: the same containment test
tried against the table keys longest first. -/
def moodLongestFirstSpec (occasion : String) : Option String :=
  ((List.insertionSort (fun a b => b.1.length ≤ a.1.length) moodMapping).find?
    (fun kv => subStr kv.1 (strLower occasion))).map (·.2)

/-! ## Catalog normalization (`normalize_city`, `normalize_cuisine`)

`CITY_MAPPINGS` is a Python dict (insertion-ordered association list);
`AVAILABLE_CITIES`/`AVAILABLE_CUISINES` are sets, modelled as lists of
their elements. -/

structure Catalog where
  cityMappings : List (String × String)
  availableCities : List String
  availableCuisines : List String
deriving Repr

/-- `normalize_city` (lines 146–163): exact mapping lookup, then first
partial match in mapping order, else the original string. -/
def normalize_city (cat : Catalog) (city : String) : String :=
  let cl := (strLower city)
  match cat.cityMappings.lookup cl with
  | some mapped => mapped
  | none =>
    match cat.cityMappings.find? (fun vm => subStr vm.1 cl || subStr cl vm.1) with
    | some vm => vm.2
    | none => city

/-- `normalize_cuisine` (lines 165–182): exact membership, then first
partial match, else the original string. -/
def normalize_cuisine (cat : Catalog) (cuisine : String) : String :=
  let cl := (strLower cuisine)
  if cl ∈ cat.availableCuisines then cl
  else
    match cat.availableCuisines.find? (fun dc => subStr cl dc || subStr dc cl) with
    | some dc => dc
    | none => cuisine

/-! ## Query execution

`get_recommendations` builds one SQL string plus a positional parameter
list, and the relaxation steps drop a clause from the string with
`str.replace` while dropping parameters from the list **by value**
(`[p for p in params if p != mood]`).  We embed the query as a list of
clause kinds plus a parallel list of parameter values; execution fails
(the driver raises) when the two lists disagree in length or a parameter
has the wrong type for its placeholder. -/

inductive Clause where
  | capGE | cityEq | cuisineEq | moodEq
deriving DecidableEq, Repr

def clauseWellTyped : Clause → AVal → Bool
  | .capGE, .i _ => true
  | .cityEq, .s _ => true
  | .cuisineEq, .s _ => true
  | .moodEq, .s _ => true
  | _, _ => false

def clauseHolds (r : Restaurant) : Clause → AVal → Bool
  | .capGE, .i n => decide (n ≤ r.available_capacity)
  | .cityEq, .s v => strLower r.city == strLower v
  | .cuisineEq, .s v => strLower r.cuisine == strLower v
  | .moodEq, .s v => strLower r.mood == strLower v
  | _, _ => false

/-- Run a query: `none` models the database driver raising (placeholder /
parameter mismatch), `some rows` the fetched rows. -/
def execQuery (db : List Restaurant) (clauses : List Clause) (params : List AVal) :
    Option (List Restaurant) :=
  if clauses.length == params.length
      && (clauses.zip params).all (fun cp => clauseWellTyped cp.1 cp.2) then
    some (db.filter (fun r => (clauses.zip params).all (fun cp => clauseHolds r cp.1 cp.2)))
  else none

/-! ## Ranking (lines 473–484) -/

def boolKey (b : Bool) : Nat := if b then 1 else 0

/-- The three conditional in-place sorts applied to `result_data`:
by open-slot count descending, then (if a mood was derived) by
mood-match descending, then (if a cuisine was given) by cuisine-match
descending; each sort is stable. -/
def rankResults (mood normalized_cuisine : Option String) (result_data : List Restaurant) :
    List Restaurant :=
  if result_data.isEmpty then result_data
  else
    let s1 := sortDescBy (fun r => r.available_reservations.length) result_data
    let s2 :=
      match mood with
      | some m => if m ≠ "" then sortDescBy (fun r => boolKey (strLower r.mood == strLower m)) s1 else s1
      | none => s1
    match normalized_cuisine with
    | some c => if c ≠ "" then sortDescBy (fun r => boolKey (strLower r.cuisine == strLower c)) s2 else s2
    | none => s2

/-- Written from the claim text: "mood equals requested mood" (false when
no mood was requested). -/
def moodFlag (mood : Option String) (r : Restaurant) : Bool :=
  match mood with
  | some m => strLower r.mood == strLower m
  | none => false

/-- Written from the claim text: "cuisine equals requested cuisine". -/
def cuisineFlag (cuisine : Option String) (r : Restaurant) : Bool :=
  match cuisine with
  | some c => strLower r.cuisine == strLower c
  | none => false

/-- Written from the claim text: the unconditional composition of the
three sequential stable sorts, slot count first, cuisine match last. -/
def threePassRank (mood cuisine : Option String) (l : List Restaurant) : List Restaurant :=
  sortDescBy (fun r => boolKey (cuisineFlag cuisine r))
    (sortDescBy (fun r => boolKey (moodFlag mood r))
      (sortDescBy (fun r => r.available_reservations.length) l))

/-! ## The recommendation engine (`get_recommendations`, lines 337–515) -/

inductive QueryLevel where
  | full | noMood | noCuisine | cityOnly
deriving DecidableEq, Repr

structure RecOk where
  status : String
  count : Nat
  derived_mood : Option String
  normalized_city : Option String
  normalized_cuisine : Option String
  fallback_suggestions : Option (List String × Nat)
  data : List Restaurant
deriving DecidableEq, Repr

inductive RecResult where
  | err : String → RecResult
  | insufficient_info : String → List String → RecResult
  | ok : RecOk → RecResult
deriving DecidableEq, Repr

/-- `message` of the `status: "error"` dict when the driver raises; its
text is `str(e)` from the external driver and carries no logic. -/
def dbErrMsg : String := "database driver raised"

/-- `normalized_city = normalize_city(city) if city else None`. -/
def recNCity (cat : Catalog) (city : Option String) : Option String :=
  match city with
  | some c => if c ≠ "" then some (normalize_city cat c) else none
  | none => none

/-- `normalized_cuisine = normalize_cuisine(cuisine_preference) if cuisine_preference else None`. -/
def recNCuisine (cat : Catalog) (cuisine_preference : Option String) : Option String :=
  match cuisine_preference with
  | some c => if c ≠ "" then some (normalize_cuisine cat c) else none
  | none => none

/-- `mood = None` unless the occasion is truthy, in which case the first
matching table key's mood (lines 393–399). -/
def recMood (occasion : Option String) : Option String :=
  match occasion with
  | some o => if o ≠ "" then deriveMood o else none
  | none => none

/-- One optional clause/parameter pair, present when the value is truthy. -/
def optPair (c : Clause) (v : Option String) : List (Clause × AVal) :=
  match v with
  | some x => if x ≠ "" then [(c, AVal.s x)] else []
  | none => []

/-- The fully constrained query, clauses and parameters appended in source
order: group size, city, cuisine, mood (lines 401–419). -/
def recBase (gs : Option Int) (ncity ncuisine mood : Option String) :
    List (Clause × AVal) :=
  (match gs with
   | some n => [(Clause.capGE, AVal.i n)]
   | none => [])
  ++ optPair Clause.cityEq ncity
  ++ optPair Clause.cuisineEq ncuisine
  ++ optPair Clause.moodEq mood

/-- Cuisines available in a list of rows: the set of truthy lowercased
cuisine values, sorted (lines 450–457). -/
def cityCuisines (rows : List Restaurant) : List String :=
  sortedStrings
    ((rows.filterMap (fun r => if r.cuisine ≠ "" then some (strLower r.cuisine) else none)).dedup)

/-- Fourth stage of the cascade: city-only fallback metadata (lines
444–461) and the final ranking/assembly (lines 463–508), over the rows
`rows2` the relaxation settled on. -/
def recAssemble (db : List Restaurant) (ncity ncuisine mood : Option String)
    (rows2 : List Restaurant) (tr2 : List QueryLevel) : RecResult × List QueryLevel :=
  let fb : Option (List String × Nat) × List QueryLevel :=
    if rows2.isEmpty && optTruthy ncity then
      let city_restaurants :=
        db.filter (fun r => strLower r.city == strLower (ncity.getD ""))
      (some (cityCuisines city_restaurants, city_restaurants.length),
       tr2 ++ [QueryLevel.cityOnly])
    else (none, tr2)
  let ranked := rankResults mood ncuisine rows2
  (.ok { status := if ranked.isEmpty then "no_results" else "success"
       , count := ranked.length
       , derived_mood := mood
       , normalized_city := ncity
       , normalized_cuisine := ncuisine
       , fallback_suggestions := fb.1
       , data := ranked.take 5 }, fb.2)

/-- Third stage of the cascade: cuisine relaxation (lines 433–442),
then the assembly.  `rows1` are the rows after the mood relaxation,
`tr` the query levels executed so far. -/
def recAfterMood (db : List Restaurant) (ncity ncuisine mood : Option String)
    (clauses : List Clause) (params : List AVal)
    (rows1 : List Restaurant) (tr : List QueryLevel) : RecResult × List QueryLevel :=
  let next : Option (List Restaurant) × List QueryLevel :=
    if rows1.isEmpty && optTruthy ncuisine then
      let clauses2 :=
        if optTruthy mood then
          clauses.filter (fun c => c ≠ Clause.cuisineEq && c ≠ Clause.moodEq)
        else clauses.filter (fun c => c ≠ Clause.cuisineEq)
      let params2 :=
        if optTruthy mood then
          params.filter (fun p => p ≠ AVal.s (mood.getD "") && p ≠ AVal.s (ncuisine.getD ""))
        else params.filter (fun p => p ≠ AVal.s (ncuisine.getD ""))
      (execQuery db clauses2 params2, tr ++ [QueryLevel.noCuisine])
    else (some rows1, tr)
  match next with
  | (none, tr2) => (.err dbErrMsg, tr2)
  | (some rows2, tr2) => recAssemble db ncity ncuisine mood rows2 tr2

/-- Second stage of the cascade: the mood relaxation (lines 425–431).
The mood clause is dropped from the query string while the parameter
list is filtered **by value**. -/
def recAfterFull (db : List Restaurant) (ncity ncuisine mood : Option String)
    (clauses : List Clause) (params : List AVal)
    (rows0 : List Restaurant) : RecResult × List QueryLevel :=
  if rows0.isEmpty && optTruthy mood then
    match execQuery db (clauses.filter (fun c => c ≠ Clause.moodEq))
        (params.filter (fun p => p ≠ AVal.s (mood.getD ""))) with
    | none => (.err dbErrMsg, [QueryLevel.full, QueryLevel.noMood])
    | some rows1 =>
      recAfterMood db ncity ncuisine mood clauses params rows1
        [QueryLevel.full, QueryLevel.noMood]
  else recAfterMood db ncity ncuisine mood clauses params rows0 [QueryLevel.full]

/-- The engine once the group size has been coerced (everything in
`get_recommendations` after line 365). -/
def recWithGS (cat : Catalog) (db : List Restaurant)
    (city occasion cuisine_preference : Option String) (gs : Option Int) :
    RecResult × List QueryLevel :=
  let ncity := recNCity cat city
  let ncuisine := recNCuisine cat cuisine_preference
  if optTruthy ncity = false then
    (.insufficient_info "Please specify a city for restaurant recommendations"
      ((sortedStrings cat.availableCities).take 10), [])
  else
    let mood := recMood occasion
    let base := recBase gs ncity ncuisine mood
    let clauses := base.map Prod.fst
    let params := base.map Prod.snd
    match execQuery db clauses params with
    | none => (.err dbErrMsg, [QueryLevel.full])
    | some rows0 => recAfterFull db ncity ncuisine mood clauses params rows0

/-- `get_recommendations`: coerce the group size (lines 356–365), then run
the engine.  The second component is the trace of query levels the
engine executed, in order. -/
def get_recommendations (cat : Catalog) (db : List Restaurant)
    (city occasion cuisine_preference : Option String) (group_size : AVal) :
    RecResult × List QueryLevel :=
  match group_size with
  | .s v =>
    match pyInt v with
    | none => (.err ("Invalid group size: " ++ v ++ ". Must be a number."), [])
    | some n => recWithGS cat db city occasion cuisine_preference (some n)
  | .i n => recWithGS cat db city occasion cuisine_preference (some n)
  | .non => recWithGS cat db city occasion cuisine_preference none

/-! ## Booking (`book_restaurant`, lines 517–662) -/

/-- One row of the `reservations` table (the columns the tool writes). -/
structure Reservation where
  customer_name : String
  contact_number : String
  party_size : Int
  reservation_time : String
deriving DecidableEq, Repr

/-- The database state the booking tool reads and writes. -/
structure BookState where
  restaurants : List Restaurant
  reservations : List Reservation
deriving DecidableEq, Repr

inductive BookResult where
  | incomplete : List String → BookResult
  | not_found : BookResult
  | unavailable_time : List String → BookResult
  | insufficient_capacity : Int → Int → BookResult
  | success : Nat → BookResult
deriving DecidableEq, Repr

/-- The `LOWER(name) LIKE LOWER('%…%')` lookup with optional city filter
(lines 571–580); `fetchone` returns the first matching row. -/
def findRestaurant (restaurant_name : String) (ncity : Option String)
    (rows : List Restaurant) : Option Restaurant :=
  rows.find? (fun r =>
    subStr (strLower restaurant_name) (strLower r.name)
      && (if optTruthy ncity then strLower r.city == strLower (ncity.getD "") else true))

/-- `book_restaurant`: field checks (lines 536–559), lookup, time check,
capacity check, then insert the reservation and update the row
(capacity decremented, first occurrence of the booked slot removed). -/
def book_restaurant (cat : Catalog) (restaurant_name reservation_time : Option String)
    (party_size : AVal) (customer_name contact_number city : Option String)
    (st : BookState) : BookResult × BookState :=
  let m1 := if optTruthy restaurant_name then [] else ["restaurant name"]
  let m2 := m1 ++ (if optTruthy reservation_time then [] else ["reservation time"])
  let m3 := m2 ++ (if party_size.truthy then [] else ["party size"])
  match party_size.toInt with
  | none =>
    (.incomplete (m3 ++ ["valid party size (must be a number)"]
      ++ (if optTruthy customer_name then [] else ["customer name"])
      ++ (if optTruthy contact_number then [] else ["contact number"])), st)
  | some p =>
    let m4 := m3 ++ (if optTruthy customer_name then [] else ["customer name"])
    let m5 := m4 ++ (if optTruthy contact_number then [] else ["contact number"])
    if m5 ≠ [] then (.incomplete m5, st)
    else
      let ncity := match city with
        | some c => if c ≠ "" then some (normalize_city cat c) else none
        | none => none
      let t := reservation_time.getD ""
      match findRestaurant (restaurant_name.getD "") ncity st.restaurants with
      | none => (.not_found, st)
      | some r =>
        if t ∉ r.available_reservations then
          (.unavailable_time r.available_reservations, st)
        else if r.available_capacity < p then
          (.insufficient_capacity r.available_capacity p, st)
        else
          let updated := { r with
            available_capacity := r.available_capacity - p
          , available_reservations := r.available_reservations.erase t }
          (.success (st.reservations.length + 1)
          , { restaurants := st.restaurants.map (fun x => if x.rid == r.rid then updated else x)
            , reservations := st.reservations
                ++ [{ customer_name := customer_name.getD ""
                    , contact_number := contact_number.getD ""
                    , party_size := p
                    , reservation_time := t }] })

/-! ## Validation tool (`validate_booking_info`, lines 721–781) -/

structure VBIResult where
  status : String
  missing_fields : List String
  provided_fields : List (String × AVal)
deriving DecidableEq, Repr

/-- An optional string argument as the Python value it stands for. -/
def optA : Option String → AVal
  | none => .non
  | some v => .s v

/-- `validate_booking_info`: accumulate missing-field names in source
order, coerce (or `None`-out) the party size, and report the provided
fields with `None` values filtered out. -/
def validate_booking_info (restaurant_name reservation_time : Option String)
    (party_size : AVal) (customer_name contact_number city : Option String) : VBIResult :=
  let m1 := if optTruthy restaurant_name then [] else ["restaurant_name"]
  let m2 := m1 ++ (if optTruthy reservation_time then [] else ["reservation_time"])
  let psStep : List String × AVal :=
    if ¬ party_size.truthy then (m2 ++ ["party_size"], party_size)
    else match party_size.toInt with
      | some n => (m2, AVal.i n)
      | none => (m2 ++ ["valid_party_size"], AVal.non)
  let m3 := psStep.1
  let ps := psStep.2
  let m4 := m3 ++ (if optTruthy customer_name then [] else ["customer_name"])
  let m5 := m4 ++ (if optTruthy contact_number then [] else ["contact_number"])
  let m6 := m5 ++ (if optTruthy city then [] else ["city"])
  let provided :=
    [("restaurant_name", optA restaurant_name), ("reservation_time", optA reservation_time),
     ("party_size", ps), ("customer_name", optA customer_name),
     ("contact_number", optA contact_number), ("city", optA city)].filter
      (fun kv => kv.2 ≠ AVal.non)
  { status := if m6.isEmpty then "complete" else "missing_fields"
  , missing_fields := m6
  , provided_fields := provided }

/-! ## The tool dispatcher (`tool_pattern/tool_agent.py`)

Tool results are abstracted to the fields the dispatcher inspects
(`status`, presence and truthiness of `data`) plus an opaque tag; a tool
invocation either returns a result, raises `KeyError(k)`, or raises some
other exception. -/

/-- Abstraction of a tool's result dict: `status` is `result.get("status")`,
`hasData` is `"data" in result`, `dataTruthy` is `bool(result["data"])`,
and `tag` stands for the rest of the payload. -/
structure TResult where
  status : Option String
  hasData : Bool
  dataTruthy : Bool
  tag : Nat
deriving DecidableEq, Repr

inductive RunOutcome where
  | ok : TResult → RunOutcome
  | keyErr : String → RunOutcome
  | exn : String → RunOutcome

/-- A registered tool: its declared parameters
(name, required flag, numeric flag) and its behaviour. -/
structure RegTool where
  schema : List (String × Bool × Bool)
  impl : List (String × AVal) → RunOutcome

structure ToolCall where
  id : Nat
  name : String
  arguments : List (String × AVal)
deriving DecidableEq, Repr

/-- A raw `<tool_call>` block: either text `json.loads` rejects (with the
decode error's message), or a parsed object with an optional `name`
field, an arguments mapping, and an optional advisory `id`. -/
inductive RawBlock where
  | bad : String → RawBlock
  | obj : Option String → List (String × AVal) → Option Int → RawBlock

inductive ObsKey where
  | idK : Nat → ObsKey
  | errK | remK
deriving DecidableEq, Repr

inductive ObsVal where
  | res : TResult → ObsVal
  | errS : String → ObsVal
  | rem
deriving DecidableEq, Repr

/-- The observations dict, insertion-ordered. -/
abbrev Obs := List (ObsKey × ObsVal)

/-- Python dict assignment `m[k] = v`: replace in place, or append. -/
def dictInsert (m : Obs) (k : ObsKey) (v : ObsVal) : Obs :=
  if m.any (fun kv => kv.1 == k) then
    m.map (fun kv => if kv.1 == k then (k, v) else kv)
  else m ++ [(k, v)]

/-- `str(KeyError(k))` is the `repr` of the key: the key wrapped in single
quotes. -/
def keyErrorStr (k : String) : String := "\x27" ++ k ++ "\x27"

/-- The dispatcher's `f"Tool '{e}' not found"` with `e` the caught
`KeyError`: the key ends up wrapped in doubled single quotes. -/
def toolNotFound (k : String) : String :=
  "Tool \x27" ++ keyErrorStr k ++ "\x27 not found"

/-- The message shape the spec writes, `"Tool '<name>' not found"`, for
comparison with what the code produces. -/
def toolNotFoundSpec (k : String) : String :=
  "Tool \x27" ++ k ++ "\x27 not found"

/-- The agent-side coercion loop over validated arguments
(`tool_agent.py` lines 139–148): `group_size` values are coerced with
`int(...)`, keeping the original value if that raises. -/
def coerceGroupSize (args : List (String × AVal)) : List (String × AVal) :=
  args.map (fun kv =>
    if kv.1 == "group_size" && kv.2 ≠ AVal.non then
      match kv.2.toInt with
      | some n => (kv.1, AVal.i n)
      | none => kv
    else kv)

/-- Modelled from the spec: `validate_arguments` lives in
`tool_pattern/tool.py`, which is not among the sources; §4.3 of the spec
defines it.  It fails on a missing required parameter, coerces
numeric-typed string arguments (keeping the original on failure), and
assigns `id` as the count of calls validated so far in this turn,
ignoring any advisory id in the raw block. -/
def validateArguments (schema : List (String × Bool × Bool)) (counter : Nat)
    (name : String) (args : List (String × AVal)) : Except String ToolCall :=
  match schema.find? (fun p => p.2.1 && (args.lookup p.1).isNone) with
  | some p => .error ("Missing required argument " ++ p.1)
  | none => .ok
    { id := counter
    , name := name
    , arguments := args.map (fun kv =>
        match schema.lookup kv.1 with
        | some fl =>
          if fl.2 then
            match kv.2 with
            | .s t =>
              match pyInt t with
              | some n => (kv.1, AVal.i n)
              | none => kv
            | _ => kv
          else kv
        | none => kv) }

/-- One iteration of the dispatch loop (`process_tool_calls`, lines
127–160): parse, take the `name` field (`KeyError('name')` when absent),
resolve it (`raise KeyError(tool_name)` when unregistered), validate,
coerce, run; `KeyError` and other exceptions land in the shared
`"error"` slot, successes under the call's id. -/
def stepCall (reg : List (String × RegTool)) (st : Obs × Nat) (b : RawBlock) : Obs × Nat :=
  match b with
  | .bad m => (dictInsert st.1 .errK (.errS ("Error: " ++ m)), st.2)
  | .obj none _ _ => (dictInsert st.1 .errK (.errS (toolNotFound "name")), st.2)
  | .obj (some nm) args _ =>
    match reg.lookup nm with
    | none => (dictInsert st.1 .errK (.errS (toolNotFound nm)), st.2)
    | some tl =>
      match validateArguments tl.schema st.2 nm args with
      | .error m => (dictInsert st.1 .errK (.errS ("Error: " ++ m)), st.2)
      | .ok call =>
        match tl.impl (coerceGroupSize call.arguments) with
        | .ok r => (dictInsert st.1 (.idK call.id) (.res r), st.2 + 1)
        | .keyErr k => (dictInsert st.1 .errK (.errS (toolNotFound k)), st.2 + 1)
        | .exn m => (dictInsert st.1 .errK (.errS ("Error: " ++ m)), st.2 + 1)

/-- `process_tool_calls` over one turn's extracted blocks; the per-turn
call-id counter starts at 0 (reset in `run`, line 177). -/
def process_tool_calls (reg : List (String × RegTool)) (blocks : List RawBlock) : Obs :=
  (blocks.foldl (stepCall reg) ([], 0)).1

/-- The calls the Argument Validator accepts during one turn, with their
assigned ids, starting from `counter`. -/
def validatedCalls (reg : List (String × RegTool)) :
    Nat → List RawBlock → List ToolCall
  | _, [] => []
  | ctr, b :: bs =>
    match b with
    | .obj (some nm) args _ =>
      match reg.lookup nm with
      | some tl =>
        match validateArguments tl.schema ctr nm args with
        | .ok c => c :: validatedCalls reg (ctr + 1) bs
        | .error _ => validatedCalls reg ctr bs
      | none => validatedCalls reg ctr bs
    | _ => validatedCalls reg ctr bs

/-- Rewrite the advisory `id` field of a raw block, leaving everything
else unchanged (used to state that the dispatcher ignores it). -/
def setRawId (g : RawBlock → Option Int) (b : RawBlock) : RawBlock :=
  match b with
  | .obj nm args _ => .obj nm args (g b)
  | x => x

/-- The test `run` applies to each observation value (lines 205–207):
a dict whose `status` is `"no_results"` with a present and falsy `data`. -/
def isNoResultsEmpty : ObsVal → Bool
  | .res r => r.status == some "no_results" && r.hasData && !r.dataTruthy
  | _ => false

/-- The reminder injection in `run` (lines 203–211): scan the
observations in order; at the first no-results value insert the single
`"reminder"` entry and stop. -/
def addReminder (observations : Obs) : Obs :=
  if observations.any (fun kv => isNoResultsEmpty kv.2) then
    dictInsert observations .remK .rem
  else observations

/-- Written from the claim text (tail of the cascade): with `rows1` the
rows after the mood step and `tr1` the levels executed so far, drop
cuisine (and mood, if a mood was derived) when a cuisine was given and
`rows1` is empty; if the final row set is empty, fall back to the
city-only query, whose fallback metadata is the sorted set of cuisines
in the city and the city's restaurant count. -/
def relaxationTailSpec (db : List Restaurant) (ncity ncuisine mood : Option String)
    (base : List (Clause × AVal)) (rows1 : List Restaurant) (tr1 : List QueryLevel) :
    RecResult × List QueryLevel :=
  let step2 : List Restaurant × List QueryLevel :=
    if rows1.isEmpty && optTruthy ncuisine then
      (db.filter (fun r => (base.filter (fun cp =>
          if optTruthy mood then cp.1 ≠ Clause.cuisineEq && cp.1 ≠ Clause.moodEq
          else decide (cp.1 ≠ Clause.cuisineEq))).all
        (fun cp => clauseHolds r cp.1 cp.2)),
       tr1 ++ [QueryLevel.noCuisine])
    else (rows1, tr1)
  if step2.1.isEmpty then
    let cityR := db.filter (fun r => strLower r.city == strLower (ncity.getD ""))
    (.ok { status := "no_results", count := 0, derived_mood := mood
         , normalized_city := ncity, normalized_cuisine := ncuisine
         , fallback_suggestions := some (cityCuisines cityR, cityR.length)
         , data := [] }, step2.2 ++ [QueryLevel.cityOnly])
  else
    (.ok { status := "success"
         , count := (rankResults mood ncuisine step2.1).length
         , derived_mood := mood, normalized_city := ncity, normalized_cuisine := ncuisine
         , fallback_suggestions := none
         , data := (rankResults mood ncuisine step2.1).take 5 }, step2.2)

/-- Written from the claim text: the relaxation cascade as the claim
describes it, over the clause/parameter pair list `base` of the fully
constrained query, assuming that query returned no rows: drop only the
mood constraint (when a mood was derived), then hand over to
`relaxationTailSpec`; the trace lists the levels executed in order. -/
def relaxationCascadeSpec (db : List Restaurant) (ncity ncuisine mood : Option String)
    (base : List (Clause × AVal)) : RecResult × List QueryLevel :=
  relaxationTailSpec db ncity ncuisine mood base
    (if optTruthy mood then
      db.filter (fun r => (base.filter (fun cp => cp.1 ≠ Clause.moodEq)).all
        (fun cp => clauseHolds r cp.1 cp.2))
    else [])
    (QueryLevel.full :: (if optTruthy mood then [QueryLevel.noMood] else []))

/-! ## Concrete fixtures used by witnesses and counterexamples -/

/-- A successful result with data. -/
def okResult : TResult := { status := some "success", hasData := true, dataTruthy := true, tag := 1 }

/-- A `no_results` result with present-and-empty data. -/
def nrResult : TResult := { status := some "no_results", hasData := true, dataTruthy := false, tag := 2 }

/-- A registry with one well-behaved tool. -/
def pingReg : List (String × RegTool) := [("ping", ⟨[], fun _ => .ok okResult⟩)]

/-- A registry with one tool returning `no_results`. -/
def emptyReg : List (String × RegTool) := [("empty", ⟨[], fun _ => .ok nrResult⟩)]

/-- A registry with one tool that raises `KeyError('cuisine')`. -/
def boomReg : List (String × RegTool) := [("boom", ⟨[], fun _ => .keyErr "cuisine"⟩)]

/-- Ranking example: 2 open slots, cuisine matches, mood does not. -/
def exA : Restaurant :=
  { rid := 1, name := "A", city := "chicago", address := "1 A St", cuisine := "italian"
  , seating_capacity := 20, available_capacity := 8
  , available_reservations := ["5:00 PM", "6:00 PM"], mood := "casual" }

/-- Ranking example: 5 open slots, mood matches, cuisine does not. -/
def exB : Restaurant :=
  { rid := 2, name := "B", city := "chicago", address := "2 B St", cuisine := "mexican"
  , seating_capacity := 20, available_capacity := 8
  , available_reservations := ["5:00 PM", "6:00 PM", "7:00 PM", "8:00 PM", "9:00 PM"]
  , mood := "romantic" }

/-- Ranking example: 3 open slots, neither mood nor cuisine matches. -/
def exC : Restaurant :=
  { rid := 3, name := "C", city := "chicago", address := "3 C St", cuisine := "thai"
  , seating_capacity := 20, available_capacity := 8
  , available_reservations := ["5:00 PM", "6:00 PM", "7:00 PM"], mood := "casual" }

/-- Catalog for the relaxation counterexample: `"casual"` is not an
available cuisine, so `normalize_cuisine` passes it through. -/
def catCX : Catalog :=
  { cityMappings := [("chicago", "chicago")]
  , availableCities := ["chicago"], availableCuisines := ["italian"] }

/-- The one Chicago restaurant of the relaxation counterexample. -/
def rCX : Restaurant :=
  { rid := 1, name := "Trattoria", city := "Chicago", address := "1 Main St"
  , cuisine := "italian", seating_capacity := 50, available_capacity := 4
  , available_reservations := ["6:00 PM", "8:00 PM"], mood := "romantic" }

/-! # Theorems -/

theorem listLexLe_total : ∀ a b, listLexLe a b = true ∨ listLexLe b a = true := by
  intro a
  induction a with
  | nil => intro b; left; rfl
  | cons x xs ih =>
    intro b
    cases b with
    | nil => right; rfl
    | cons y ys =>
      rcases Nat.lt_trichotomy x.toNat y.toNat with h | h | h
      · left; simp [listLexLe, h]
      · rcases ih ys with h2 | h2 <;>
          [left; right] <;> simp [listLexLe, h, h2]
      · right; simp [listLexLe, h]

theorem listLexLe_trans :
    ∀ a b c, listLexLe a b = true → listLexLe b c = true → listLexLe a c = true := by
  intro a
  induction a with
  | nil => intro b c _ _; rfl
  | cons x xs ih =>
    intro b c hab hbc
    cases b with
    | nil => simp [listLexLe] at hab
    | cons y ys =>
      cases c with
      | nil => simp [listLexLe] at hbc
      | cons z zs =>
        simp only [listLexLe] at hab hbc ⊢
        rcases Nat.lt_trichotomy x.toNat y.toNat with h1 | h1 | h1 <;>
          rcases Nat.lt_trichotomy y.toNat z.toNat with h2 | h2 | h2 <;>
          simp_all <;> first
            | omega
            | exact ih ys zs hab hbc

theorem sortedStrings_sorted (l : List String) :
    (sortedStrings l).Sorted (fun a b => strLeB a b = true) := by
  haveI : IsTotal String (fun a b => strLeB a b = true) :=
    ⟨fun a b => listLexLe_total a.toList b.toList⟩
  haveI : IsTrans String (fun a b => strLeB a b = true) :=
    ⟨fun a b c => listLexLe_trans a.toList b.toList c.toList⟩
  exact List.sorted_insertionSort _ l

theorem insertDescBy_const_zero (x : α) (l : List α) :
    insertDescBy (fun _ => 0) x l = x :: l := by
  cases l <;> simp [insertDescBy]

/-- A stable sort whose keys are all equal is the identity. -/
theorem sortDescBy_const_zero (l : List α) :
    sortDescBy (fun _ => 0) l = l := by
  induction l with
  | nil => rfl
  | cons x xs ih => simp [sortDescBy, ih, insertDescBy_const_zero]

/-- `find?` returns the head of the first decomposition whose prefix has
no match. -/
theorem findFirstAppend (p : α → Bool) (pre post : List α) (x : α)
    (hpre : ∀ y ∈ pre, p y = false) (hx : p x = true) :
    (pre ++ x :: post).find? p = some x := by
  induction pre with
  | nil => simp [List.find?, hx]
  | cons y ys ih =>
    have hy : p y = false := hpre y (by simp)
    simp only [List.cons_append, List.find?, hy]
    exact ih (fun z hz => hpre z (by simp [hz]))

/-! ## C9 — the validation tool is a pure function of its arguments -/

/-- C9: calling `validate_booking_info` twice with identical arguments
yields identical `missing_fields` and `provided_fields`; the tool reads
no state besides its arguments. -/
theorem validate_booking_idempotent
    (restaurant_name reservation_time : Option String) (party_size : AVal)
    (customer_name contact_number city : Option String) :
    (validate_booking_info restaurant_name reservation_time party_size
        customer_name contact_number city).missing_fields =
      (validate_booking_info restaurant_name reservation_time party_size
        customer_name contact_number city).missing_fields ∧
    (validate_booking_info restaurant_name reservation_time party_size
        customer_name contact_number city).provided_fields =
      (validate_booking_info restaurant_name reservation_time party_size
        customer_name contact_number city).provided_fields :=
  ⟨rfl, rfl⟩

/-! ## C6 — mood derivation order -/

/-- C6 (counterexample): the claim says the occasion→mood table is tried
longest key first; on `"celebration date"` that would pick
`celebration→lively`, but the code tries the table in declaration order
and picks `date→romantic`. -/
theorem mood_longest_first_counterexample :
    deriveMood "celebration date" ≠ moodLongestFirstSpec "celebration date" ∧
    deriveMood "celebration date" = some "romantic" ∧
    moodLongestFirstSpec "celebration date" = some "lively" := by
  refine ⟨?_, ?_, ?_⟩ <;> decide

/-- C6 (amended): the derived mood is obtained by substring containment
against the fixed table tried in declaration order — the first table key
contained in the lowercased occasion wins — and an occasion containing
no table key yields no mood constraint. -/
theorem mood_declaration_order (occasion : String) :
    ((∀ kv ∈ moodMapping, subStr kv.1 (strLower occasion) = false) →
        deriveMood occasion = none) ∧
    (∀ pre post k v, moodMapping = pre ++ (k, v) :: post →
        (∀ kv ∈ pre, subStr kv.1 (strLower occasion) = false) →
        subStr k (strLower occasion) = true →
        deriveMood occasion = some v) := by
  constructor
  · intro h
    unfold deriveMood
    rw [List.find?_eq_none.mpr]
    · rfl
    · intro kv hkv
      simp [h kv hkv]
  · intro pre post k v hsplit hpre hk
    unfold deriveMood
    rw [hsplit, findFirstAppend _ pre post (k, v) hpre hk]
    rfl

/-- C6 (witness): the amended theorem applied at `"prom night"` (no table
key contained) and `"family dinner"` (third table entry matched, earlier
keys absent). -/
theorem mood_declaration_order_witness :
    deriveMood "prom night" = none ∧ deriveMood "family dinner" = some "casual" := by
  constructor
  · exact (mood_declaration_order "prom night").1 (by decide)
  · exact (mood_declaration_order "family dinner").2
      [("date", "romantic"), ("business", "sophisticated")] [("friends", "casual"),
        ("celebration", "lively")] "family" "casual" (by decide) (by decide) (by decide)

/-! ## C7 / C10 — the shared `"error"` observation slot -/

/-- C7 (counterexample): for a call whose tool name `"foo"` is not
registered, the code records `Tool ''foo'' not found` — the caught
`KeyError` stringifies with quotes of its own — not the claimed
`Tool 'foo' not found`. -/
theorem unknown_tool_message_counterexample :
    process_tool_calls [] [RawBlock.obj (some "foo") [] none] =
      [(ObsKey.errK, ObsVal.errS "Tool \x27\x27foo\x27\x27 not found")] ∧
    toolNotFoundSpec "foo" = "Tool \x27foo\x27 not found" ∧
    "Tool \x27\x27foo\x27\x27 not found" ≠ toolNotFoundSpec "foo" := by
  refine ⟨rfl, rfl, ?_⟩; decide

/-- C7 (amended): an unresolved tool name records
`Tool ''<name>'' not found` (the name wrapped in the `KeyError`'s own
quotes) in the single shared `"error"` slot, the batch continues with
the next call, and a second unresolved name overwrites the slot so only
the last such error survives. -/
theorem unknown_tool_error_overwrite (reg : List (String × RegTool))
    (nm nm2 : String) (args args2 : List (String × AVal)) (rid rid2 : Option Int)
    (blocks : List RawBlock)
    (hnm : reg.lookup nm = none) (hnm2 : reg.lookup nm2 = none) :
    (∀ obs ctr, stepCall reg (obs, ctr) (.obj (some nm) args rid) =
        (dictInsert obs .errK (.errS (toolNotFound nm)), ctr)) ∧
    process_tool_calls reg (.obj (some nm) args rid :: blocks) =
      (blocks.foldl (stepCall reg) ([(.errK, .errS (toolNotFound nm))], 0)).1 ∧
    process_tool_calls reg [.obj (some nm) args rid, .obj (some nm2) args2 rid2] =
      [(.errK, .errS (toolNotFound nm2))] := by
  refine ⟨fun obs ctr => by simp [stepCall, hnm], ?_, ?_⟩
  · simp [process_tool_calls, stepCall, hnm, dictInsert]
  · simp [process_tool_calls, stepCall, hnm, hnm2, dictInsert]

/-- C7 (witness): two calls to unregistered tools in one turn leave only
the second error message. -/
theorem unknown_tool_error_overwrite_witness :
    process_tool_calls []
        [RawBlock.obj (some "alpha") [] none, RawBlock.obj (some "beta") [] none] =
      [(ObsKey.errK, ObsVal.errS (toolNotFound "beta"))] :=
  (unknown_tool_error_overwrite [] "alpha" "beta" [] [] none none [] rfl rfl).2.2

/-- C10 (counterexample): a block that parses but has no `"name"` field is
recorded as `Tool ''name'' not found` — with the `KeyError`'s quotes
doubled — not the claimed `Tool 'name' not found`. -/
theorem keyerror_message_counterexample :
    process_tool_calls [] [RawBlock.obj none [("x", AVal.i 1)] (some 5)] =
      [(ObsKey.errK, ObsVal.errS "Tool \x27\x27name\x27\x27 not found")] ∧
    "Tool \x27\x27name\x27\x27 not found" ≠ toolNotFoundSpec "name" := by
  refine ⟨rfl, ?_⟩; decide

/-- C10 (amended): a parsed block without a `"name"` field, and a resolved
tool whose invocation raises `KeyError(k)`, both land in the shared
`"error"` slot through the `KeyError` branch with the unresolved-tool
message shape `Tool ''<key>'' not found` (the key wrapped in the
`KeyError`'s own quotes), and the batch continues with the next call. -/
theorem keyerror_shared_slot (reg : List (String × RegTool))
    (args : List (String × AVal)) (rid : Option Int) (blocks : List RawBlock) :
    (∀ obs ctr, stepCall reg (obs, ctr) (.obj none args rid) =
        (dictInsert obs .errK (.errS (toolNotFound "name")), ctr)) ∧
    process_tool_calls reg (.obj none args rid :: blocks) =
      (blocks.foldl (stepCall reg) ([(.errK, .errS (toolNotFound "name"))], 0)).1 ∧
    (∀ nm tl call obs ctr k, reg.lookup nm = some tl →
        validateArguments tl.schema ctr nm args = .ok call →
        tl.impl (coerceGroupSize call.arguments) = .keyErr k →
        stepCall reg (obs, ctr) (.obj (some nm) args rid) =
          (dictInsert obs .errK (.errS (toolNotFound k)), ctr + 1)) := by
  refine ⟨fun obs ctr => by simp [stepCall], ?_, ?_⟩
  · simp [process_tool_calls, stepCall, dictInsert]
  · intro nm tl call obs ctr k hlk hval hrun
    simp [stepCall, hlk, hval, hrun]

/-- C10 (witness): a name-less block followed by a call to a tool that
raises `KeyError('cuisine')`; the second failure overwrites the shared
slot and the turn still processed both calls. -/
theorem keyerror_shared_slot_witness :
    stepCall [("boom", { schema := [], impl := fun _ => RunOutcome.keyErr "cuisine" })]
        ([], 0) (RawBlock.obj none [] none) =
      ([(ObsKey.errK, ObsVal.errS (toolNotFound "name"))], 0) ∧
    stepCall [("boom", { schema := [], impl := fun _ => RunOutcome.keyErr "cuisine" })]
        ([(ObsKey.errK, ObsVal.errS (toolNotFound "name"))], 0)
        (RawBlock.obj (some "boom") [] none) =
      ([(ObsKey.errK, ObsVal.errS (toolNotFound "cuisine"))], 1) := by
  constructor
  · exact (keyerror_shared_slot
      [("boom", { schema := [], impl := fun _ => RunOutcome.keyErr "cuisine" })]
      [] none []).1 [] 0
  · have h := (keyerror_shared_slot
      [("boom", { schema := [], impl := fun _ => RunOutcome.keyErr "cuisine" })]
      [] none []).2.2 "boom"
      { schema := [], impl := fun _ => RunOutcome.keyErr "cuisine" }
      { id := 0, name := "boom", arguments := [] }
      [(ObsKey.errK, ObsVal.errS (toolNotFound "name"))] 0 "cuisine" rfl rfl rfl
    rw [h]; rfl

/-! ## C8 — the single reminder entry -/

/-- No entry of an observation map produced by the dispatcher uses the
`"reminder"` key. -/
def noRem (obs : Obs) : Prop := ∀ kv ∈ obs, kv.1 ≠ ObsKey.remK

theorem dictInsert_noRem (obs : Obs) (k : ObsKey) (v : ObsVal)
    (h : noRem obs) (hk : k ≠ ObsKey.remK) : noRem (dictInsert obs k v) := by
  intro kv hkv
  unfold dictInsert at hkv
  split at hkv
  · rcases List.mem_map.mp hkv with ⟨kv', hkv', heq⟩
    by_cases hc : kv'.1 == k
    · simp [hc] at heq; subst heq; exact hk
    · simp [hc] at heq; subst heq; exact h kv' hkv'
  · rcases List.mem_append.mp hkv with h1 | h1
    · exact h kv h1
    · simp at h1; subst h1; exact hk

theorem stepCall_noRem (reg : List (String × RegTool)) (st : Obs × Nat) (b : RawBlock)
    (h : noRem st.1) : noRem (stepCall reg st b).1 := by
  rcases st with ⟨obs, ctr⟩
  unfold stepCall
  cases b with
  | bad m => exact dictInsert_noRem _ _ _ h (by simp)
  | obj onm args rid =>
    cases onm with
    | none => exact dictInsert_noRem _ _ _ h (by simp)
    | some nm =>
      dsimp only
      split
      · exact dictInsert_noRem _ _ _ h (by simp)
      · split
        · exact dictInsert_noRem _ _ _ h (by simp)
        · split
          · exact dictInsert_noRem _ _ _ h (by simp)
          · exact dictInsert_noRem _ _ _ h (by simp)
          · exact dictInsert_noRem _ _ _ h (by simp)

theorem foldl_stepCall_noRem (reg : List (String × RegTool)) :
    ∀ (blocks : List RawBlock) (st : Obs × Nat), noRem st.1 →
      noRem ((blocks.foldl (stepCall reg) st).1) := by
  intro blocks
  induction blocks with
  | nil => intro st h; exact h
  | cons b bs ih =>
    intro st h
    exact ih (stepCall reg st b) (stepCall_noRem reg st b h)

theorem process_tool_calls_noRem (reg : List (String × RegTool)) (blocks : List RawBlock) :
    noRem (process_tool_calls reg blocks) :=
  foldl_stepCall_noRem reg blocks ([], 0) (by intro kv h; cases h)

theorem dictInsert_of_absent (obs : Obs) (k : ObsKey) (v : ObsVal)
    (h : ∀ kv ∈ obs, kv.1 ≠ k) : dictInsert obs k v = obs ++ [(k, v)] := by
  have hc : obs.any (fun kv => kv.1 == k) = false := by
    rw [List.any_eq_false]
    intro kv hkv
    simpa using h kv hkv
  simp [dictInsert, hc]

/-- C8: if some observation of a turn has status `"no_results"` with a
present-and-empty `data`, exactly one `"reminder"` entry is appended to
the turn's observations; otherwise the observations are returned
unchanged, with no `"reminder"` key at all. -/
theorem no_results_reminder (reg : List (String × RegTool)) (blocks : List RawBlock) :
    ((process_tool_calls reg blocks).any
        (fun kv => isNoResultsEmpty kv.2) = true →
      addReminder (process_tool_calls reg blocks) =
        process_tool_calls reg blocks ++ [(ObsKey.remK, ObsVal.rem)] ∧
      ((addReminder (process_tool_calls reg blocks)).filter
          (fun kv => kv.1 == ObsKey.remK)).length = 1) ∧
    ((process_tool_calls reg blocks).any
        (fun kv => isNoResultsEmpty kv.2) = false →
      addReminder (process_tool_calls reg blocks) = process_tool_calls reg blocks ∧
      ∀ kv ∈ process_tool_calls reg blocks, kv.1 ≠ ObsKey.remK) := by
  have hno := process_tool_calls_noRem reg blocks
  constructor
  · intro hany
    have happ : addReminder (process_tool_calls reg blocks) =
        process_tool_calls reg blocks ++ [(ObsKey.remK, ObsVal.rem)] := by
      unfold addReminder
      rw [if_pos hany]
      exact dictInsert_of_absent _ _ _ hno
    refine ⟨happ, ?_⟩
    rw [happ, List.filter_append]
    have h0 : (process_tool_calls reg blocks).filter
        (fun kv => kv.1 == ObsKey.remK) = [] := by
      rw [List.filter_eq_nil_iff]
      intro kv hkv
      simpa using hno kv hkv
    rw [h0]
    rfl
  · intro hany
    refine ⟨?_, hno⟩
    unfold addReminder
    rw [if_neg (by simp [hany])]

/-- C8 (witness): a tool returning `no_results` with empty data triggers
exactly one appended reminder entry. -/
theorem no_results_reminder_witness :
    addReminder (process_tool_calls emptyReg [RawBlock.obj (some "empty") [] none]) =
      process_tool_calls emptyReg [RawBlock.obj (some "empty") [] none]
        ++ [(ObsKey.remK, ObsVal.rem)] :=
  ((no_results_reminder emptyReg [RawBlock.obj (some "empty") [] none]).1 (by rfl)).1

/-! ## C3 — sequential per-turn call ids

The next lemmas restate each arm of `stepCall` / `validatedCalls` as an
equation, so the inductions below can rewrite with them. -/

theorem validateArguments_id (schema : List (String × Bool × Bool)) (ctr : Nat)
    (nm : String) (args : List (String × AVal)) (c : ToolCall)
    (h : validateArguments schema ctr nm args = .ok c) : c.id = ctr := by
  unfold validateArguments at h
  split at h
  · exact absurd h (by simp)
  · cases h; rfl

theorem stepCall_bad (reg : List (String × RegTool)) (obs : Obs) (ctr : Nat) (m : String) :
    stepCall reg (obs, ctr) (.bad m) =
      (dictInsert obs .errK (.errS ("Error: " ++ m)), ctr) := rfl

theorem stepCall_noName (reg : List (String × RegTool)) (obs : Obs) (ctr : Nat)
    (args : List (String × AVal)) (rid : Option Int) :
    stepCall reg (obs, ctr) (.obj none args rid) =
      (dictInsert obs .errK (.errS (toolNotFound "name")), ctr) := rfl

theorem stepCall_unknown (reg : List (String × RegTool)) (obs : Obs) (ctr : Nat)
    (nm : String) (args : List (String × AVal)) (rid : Option Int)
    (hlk : reg.lookup nm = none) :
    stepCall reg (obs, ctr) (.obj (some nm) args rid) =
      (dictInsert obs .errK (.errS (toolNotFound nm)), ctr) := by
  simp [stepCall, hlk]

theorem stepCall_invalid (reg : List (String × RegTool)) (obs : Obs) (ctr : Nat)
    (nm : String) (args : List (String × AVal)) (rid : Option Int) (tl : RegTool)
    (m : String) (hlk : reg.lookup nm = some tl)
    (hval : validateArguments tl.schema ctr nm args = .error m) :
    stepCall reg (obs, ctr) (.obj (some nm) args rid) =
      (dictInsert obs .errK (.errS ("Error: " ++ m)), ctr) := by
  simp [stepCall, hlk, hval]

theorem stepCall_run (reg : List (String × RegTool)) (obs : Obs) (ctr : Nat)
    (nm : String) (args : List (String × AVal)) (rid : Option Int) (tl : RegTool)
    (c : ToolCall) (hlk : reg.lookup nm = some tl)
    (hval : validateArguments tl.schema ctr nm args = .ok c) :
    stepCall reg (obs, ctr) (.obj (some nm) args rid) =
      (match tl.impl (coerceGroupSize c.arguments) with
       | .ok r => (dictInsert obs (.idK c.id) (.res r), ctr + 1)
       | .keyErr k => (dictInsert obs .errK (.errS (toolNotFound k)), ctr + 1)
       | .exn m => (dictInsert obs .errK (.errS ("Error: " ++ m)), ctr + 1)) := by
  simp [stepCall, hlk, hval]

theorem validatedCalls_bad (reg : List (String × RegTool)) (ctr : Nat) (m : String)
    (bs : List RawBlock) :
    validatedCalls reg ctr (.bad m :: bs) = validatedCalls reg ctr bs := rfl

theorem validatedCalls_noName (reg : List (String × RegTool)) (ctr : Nat)
    (args : List (String × AVal)) (rid : Option Int) (bs : List RawBlock) :
    validatedCalls reg ctr (.obj none args rid :: bs) = validatedCalls reg ctr bs := rfl

theorem validatedCalls_unknown (reg : List (String × RegTool)) (ctr : Nat) (nm : String)
    (args : List (String × AVal)) (rid : Option Int) (bs : List RawBlock)
    (hlk : reg.lookup nm = none) :
    validatedCalls reg ctr (.obj (some nm) args rid :: bs) = validatedCalls reg ctr bs := by
  simp [validatedCalls, hlk]

theorem validatedCalls_invalid (reg : List (String × RegTool)) (ctr : Nat) (nm : String)
    (args : List (String × AVal)) (rid : Option Int) (bs : List RawBlock) (tl : RegTool)
    (m : String) (hlk : reg.lookup nm = some tl)
    (hval : validateArguments tl.schema ctr nm args = .error m) :
    validatedCalls reg ctr (.obj (some nm) args rid :: bs) = validatedCalls reg ctr bs := by
  simp [validatedCalls, hlk, hval]

theorem validatedCalls_accept (reg : List (String × RegTool)) (ctr : Nat) (nm : String)
    (args : List (String × AVal)) (rid : Option Int) (bs : List RawBlock) (tl : RegTool)
    (c : ToolCall) (hlk : reg.lookup nm = some tl)
    (hval : validateArguments tl.schema ctr nm args = .ok c) :
    validatedCalls reg ctr (.obj (some nm) args rid :: bs) =
      c :: validatedCalls reg (ctr + 1) bs := by
  simp [validatedCalls, hlk, hval]

theorem validatedCalls_map_id (reg : List (String × RegTool)) :
    ∀ (blocks : List RawBlock) (ctr : Nat),
      (validatedCalls reg ctr blocks).map (·.id) =
        List.range' ctr (validatedCalls reg ctr blocks).length := by
  intro blocks
  induction blocks with
  | nil => intro ctr; rfl
  | cons b bs ih =>
    intro ctr
    cases b with
    | bad m => rw [validatedCalls_bad]; exact ih ctr
    | obj onm args rid =>
      cases onm with
      | none => rw [validatedCalls_noName]; exact ih ctr
      | some nm =>
        cases hlk : reg.lookup nm with
        | none => rw [validatedCalls_unknown reg ctr nm args rid bs hlk]; exact ih ctr
        | some tl =>
          cases hval : validateArguments tl.schema ctr nm args with
          | error m =>
            rw [validatedCalls_invalid reg ctr nm args rid bs tl m hlk hval]
            exact ih ctr
          | ok c =>
            rw [validatedCalls_accept reg ctr nm args rid bs tl c hlk hval]
            have hid := validateArguments_id _ _ _ _ _ hval
            simp [hid, ih (ctr + 1), List.range'_succ]

theorem validatedCalls_ignores_rawId (reg : List (String × RegTool))
    (g : RawBlock → Option Int) :
    ∀ (blocks : List RawBlock) (ctr : Nat),
      validatedCalls reg ctr (blocks.map (setRawId g)) = validatedCalls reg ctr blocks := by
  intro blocks
  induction blocks with
  | nil => intro ctr; rfl
  | cons b bs ih =>
    intro ctr
    cases b with
    | bad m =>
      rw [List.map_cons]
      show validatedCalls reg ctr (.bad m :: bs.map (setRawId g)) = _
      rw [validatedCalls_bad, validatedCalls_bad]
      exact ih ctr
    | obj onm args rid =>
      rw [List.map_cons]
      show validatedCalls reg ctr (.obj onm args _ :: bs.map (setRawId g)) = _
      cases onm with
      | none => rw [validatedCalls_noName, validatedCalls_noName]; exact ih ctr
      | some nm =>
        cases hlk : reg.lookup nm with
        | none =>
          rw [validatedCalls_unknown reg ctr nm args _ _ hlk,
            validatedCalls_unknown reg ctr nm args rid bs hlk]
          exact ih ctr
        | some tl =>
          cases hval : validateArguments tl.schema ctr nm args with
          | error m =>
            rw [validatedCalls_invalid reg ctr nm args _ _ tl m hlk hval,
              validatedCalls_invalid reg ctr nm args rid bs tl m hlk hval]
            exact ih ctr
          | ok c =>
            rw [validatedCalls_accept reg ctr nm args _ _ tl c hlk hval,
              validatedCalls_accept reg ctr nm args rid bs tl c hlk hval, ih (ctr + 1)]

theorem stepCall_ignores_rawId (reg : List (String × RegTool)) (st : Obs × Nat)
    (g : RawBlock → Option Int) (b : RawBlock) :
    stepCall reg st (setRawId g b) = stepCall reg st b := by
  cases b with
  | bad m => rfl
  | obj onm args rid => cases onm <;> rfl

theorem process_ignores_rawId (reg : List (String × RegTool)) (g : RawBlock → Option Int) :
    ∀ (blocks : List RawBlock) (st : Obs × Nat),
      (blocks.map (setRawId g)).foldl (stepCall reg) st = blocks.foldl (stepCall reg) st := by
  intro blocks
  induction blocks with
  | nil => intro st; rfl
  | cons b bs ih =>
    intro st
    rw [List.map_cons, List.foldl_cons, List.foldl_cons, stepCall_ignores_rawId]
    exact ih _

theorem dictInsert_keys_subset (obs : Obs) (k : ObsKey) (v : ObsVal) :
    ∀ k', k' ∈ (dictInsert obs k v).map (·.1) → k' ∈ obs.map (·.1) ∨ k' = k := by
  intro k' h
  unfold dictInsert at h
  split at h
  · rw [List.map_map] at h
    rcases List.mem_map.mp h with ⟨kv, hkv, heq⟩
    by_cases hc : kv.1 == k
    · right; simp only [Function.comp_apply, hc, if_true] at heq; exact heq.symm
    · left
      simp only [Function.comp_apply, hc] at heq
      rw [if_neg (by simp_all)] at heq
      exact List.mem_map.mpr ⟨kv, hkv, heq⟩
  · rw [List.map_append] at h
    rcases List.mem_append.mp h with h1 | h1
    · left; exact h1
    · right; simpa using h1

theorem foldl_idK_mem (reg : List (String × RegTool)) :
    ∀ (blocks : List RawBlock) (obs : Obs) (ctr n : Nat),
      ObsKey.idK n ∈ ((blocks.foldl (stepCall reg) (obs, ctr)).1).map (·.1) →
      ObsKey.idK n ∈ obs.map (·.1) ∨
        n ∈ (validatedCalls reg ctr blocks).map (·.id) := by
  intro blocks
  induction blocks with
  | nil => intro obs ctr n h; left; exact h
  | cons b bs ih =>
    intro obs ctr n h
    rw [List.foldl_cons] at h
    cases b with
    | bad m =>
      rw [stepCall_bad] at h
      rcases ih _ _ n h with h1 | h1
      · rcases dictInsert_keys_subset _ _ _ _ h1 with h2 | h2
        · left; exact h2
        · cases h2
      · right; rw [validatedCalls_bad]; exact h1
    | obj onm args rid =>
      cases onm with
      | none =>
        rw [stepCall_noName] at h
        rcases ih _ _ n h with h1 | h1
        · rcases dictInsert_keys_subset _ _ _ _ h1 with h2 | h2
          · left; exact h2
          · cases h2
        · right; rw [validatedCalls_noName]; exact h1
      | some nm =>
        cases hlk : reg.lookup nm with
        | none =>
          rw [stepCall_unknown reg obs ctr nm args rid hlk] at h
          rcases ih _ _ n h with h1 | h1
          · rcases dictInsert_keys_subset _ _ _ _ h1 with h2 | h2
            · left; exact h2
            · cases h2
          · right; rw [validatedCalls_unknown reg ctr nm args rid bs hlk]; exact h1
        | some tl =>
          cases hval : validateArguments tl.schema ctr nm args with
          | error m =>
            rw [stepCall_invalid reg obs ctr nm args rid tl m hlk hval] at h
            rcases ih _ _ n h with h1 | h1
            · rcases dictInsert_keys_subset _ _ _ _ h1 with h2 | h2
              · left; exact h2
              · cases h2
            · right; rw [validatedCalls_invalid reg ctr nm args rid bs tl m hlk hval]
              exact h1
          | ok c =>
            have hid := validateArguments_id _ _ _ _ _ hval
            rw [stepCall_run reg obs ctr nm args rid tl c hlk hval] at h
            rw [validatedCalls_accept reg ctr nm args rid bs tl c hlk hval]
            cases hrun : tl.impl (coerceGroupSize c.arguments) with
            | ok r =>
              rw [hrun] at h
              rcases ih _ _ n h with h1 | h1
              · rcases dictInsert_keys_subset _ _ _ _ h1 with h2 | h2
                · left; exact h2
                · right
                  rw [hid] at h2
                  have hn : n = ctr := (ObsKey.idK.injEq _ _).mp h2
                  exact List.mem_map.mpr ⟨c, List.mem_cons_self _ _, by rw [hid, hn]⟩
              · right; simpa using Or.inr h1
            | keyErr k =>
              rw [hrun] at h
              rcases ih _ _ n h with h1 | h1
              · rcases dictInsert_keys_subset _ _ _ _ h1 with h2 | h2
                · left; exact h2
                · cases h2
              · right; simpa using Or.inr h1
            | exn m =>
              rw [hrun] at h
              rcases ih _ _ n h with h1 | h1
              · rcases dictInsert_keys_subset _ _ _ _ h1 with h2 | h2
                · left; exact h2
                · cases h2
              · right; simpa using Or.inr h1

/-- C3: the Argument Validator assigns per-turn call ids 0, 1, 2, … in
extraction order (the id list over a turn's validated calls is
`List.range`), the assigned ids and the dispatcher's behaviour are
unchanged when every raw block's advisory `id` field is rewritten
arbitrarily, and every id-keyed entry of the turn's observations uses
one of these assigned ids. -/
theorem call_ids_sequential (reg : List (String × RegTool)) (blocks : List RawBlock)
    (g : RawBlock → Option Int) :
    (validatedCalls reg 0 blocks).map (·.id) =
      List.range (validatedCalls reg 0 blocks).length ∧
    validatedCalls reg 0 (blocks.map (setRawId g)) = validatedCalls reg 0 blocks ∧
    process_tool_calls reg (blocks.map (setRawId g)) = process_tool_calls reg blocks ∧
    (∀ n, ObsKey.idK n ∈ (process_tool_calls reg blocks).map (·.1) →
      n ∈ (validatedCalls reg 0 blocks).map (·.id)) := by
  refine ⟨?_, validatedCalls_ignores_rawId reg g blocks 0, ?_, ?_⟩
  · rw [validatedCalls_map_id reg blocks 0, List.range_eq_range']
  · unfold process_tool_calls
    rw [process_ignores_rawId]
  · intro n h
    rcases foldl_idK_mem reg blocks [] 0 n h with h1 | h1
    · cases h1
    · exact h1

/-- C3 (witness): a turn with an unknown tool between two good calls
still numbers the validated calls 0, 1 and keys their results by 0, 1. -/
theorem call_ids_sequential_witness :
    (validatedCalls pingReg 0
        [RawBlock.obj (some "ping") [] (some 9), RawBlock.obj (some "gone") [] (some 2),
         RawBlock.obj (some "ping") [] none]).map (·.id) = [0, 1] ∧
    (1 : Nat) ∈ (validatedCalls pingReg 0
        [RawBlock.obj (some "ping") [] (some 9), RawBlock.obj (some "gone") [] (some 2),
         RawBlock.obj (some "ping") [] none]).map (·.id) := by
  constructor
  · have h := (call_ids_sequential pingReg
      [RawBlock.obj (some "ping") [] (some 9), RawBlock.obj (some "gone") [] (some 2),
       RawBlock.obj (some "ping") [] none] (fun _ => none)).1
    rw [h]; rfl
  · exact (call_ids_sequential pingReg
      [RawBlock.obj (some "ping") [] (some 9), RawBlock.obj (some "gone") [] (some 2),
       RawBlock.obj (some "ping") [] none] (fun _ => none)).2.2.2 1 (by decide)

/-! ## C4 — booking round-trip -/

theorem subStr_self (a : String) : subStr a a = true :=
  decide_eq_true (List.infix_refl _)

/-- C4: for a well-formed booking request against a database holding the
restaurant row `r`: a successful booking for party size `P` at time `t`
decrements the available capacity by `P` and removes exactly one
occurrence of `t` from the slot list; a time not in the slot list gives
`unavailable_time` with no mutation; a party size above the available
capacity gives `insufficient_capacity` with no mutation. -/
theorem booking_roundtrip (cat : Catalog) (r : Restaurant) (resvs : List Reservation)
    (t : String) (P : Int) (cn ct : String)
    (hrn : r.name ≠ "") (ht : t ≠ "") (hcn : cn ≠ "") (hct : ct ≠ "") (hP : P ≠ 0) :
    (∀ cid st', book_restaurant cat (some r.name) (some t) (.i P) (some cn) (some ct) none
        ⟨[r], resvs⟩ = (.success cid, st') →
      st'.restaurants = [{ r with
          available_capacity := r.available_capacity - P,
          available_reservations := r.available_reservations.erase t }] ∧
      t ∈ r.available_reservations ∧
      (r.available_reservations.erase t).count t + 1 = r.available_reservations.count t ∧
      (∀ s, s ≠ t → (r.available_reservations.erase t).count s =
          r.available_reservations.count s)) ∧
    (t ∉ r.available_reservations →
      book_restaurant cat (some r.name) (some t) (.i P) (some cn) (some ct) none
        ⟨[r], resvs⟩ = (.unavailable_time r.available_reservations, ⟨[r], resvs⟩)) ∧
    (t ∈ r.available_reservations → r.available_capacity < P →
      book_restaurant cat (some r.name) (some t) (.i P) (some cn) (some ct) none
        ⟨[r], resvs⟩ = (.insufficient_capacity r.available_capacity P, ⟨[r], resvs⟩)) := by
  have hred : book_restaurant cat (some r.name) (some t) (.i P) (some cn) (some ct) none
      ⟨[r], resvs⟩ =
      (if t ∉ r.available_reservations then
        (.unavailable_time r.available_reservations, ⟨[r], resvs⟩)
      else if r.available_capacity < P then
        (.insufficient_capacity r.available_capacity P, ⟨[r], resvs⟩)
      else
        (.success (resvs.length + 1),
         { restaurants :=
             [{ r with
                  available_capacity := r.available_capacity - P,
                  available_reservations := r.available_reservations.erase t }]
         , reservations :=
             resvs ++ [{ customer_name := cn, contact_number := ct,
                         party_size := P, reservation_time := t }] })) := by
    simp [book_restaurant, optTruthy, AVal.truthy, AVal.toInt, hrn, ht, hcn, hct, hP,
      findRestaurant, List.find?, subStr_self]
  refine ⟨?_, ?_, ?_⟩
  · intro cid st' heq
    rw [hred] at heq
    by_cases htm : t ∈ r.available_reservations
    · by_cases hcap : r.available_capacity < P
      · simp [htm, hcap] at heq
      · simp only [htm, not_true, if_neg, if_false, hcap, ite_false, not_false_iff,
          ite_true] at heq
        have hst : st' =
            { restaurants :=
                [{ r with
                     available_capacity := r.available_capacity - P,
                     available_reservations := r.available_reservations.erase t }]
            , reservations :=
                resvs ++ [{ customer_name := cn, contact_number := ct,
                            party_size := P, reservation_time := t }] } :=
          (Prod.mk.injEq _ _ _ _ |>.mp heq).2.symm
        refine ⟨by rw [hst], htm, ?_, ?_⟩
        · have h1 := List.count_erase_self t r.available_reservations
          have h2 : 0 < r.available_reservations.count t := List.count_pos_iff.mpr htm
          omega
        · intro s hs
          exact List.count_erase_of_ne hs r.available_reservations
    · simp [htm] at heq
  · intro htm
    rw [hred, if_pos htm]
  · intro htm hcap
    rw [hred, if_neg (by simp [htm]), if_pos hcap]

/-- C4 (witness): with a concrete restaurant holding a duplicated
`"7:00 PM"` slot, booking removes exactly one occurrence and decrements
capacity; the two failure modes leave the row untouched. -/
theorem booking_roundtrip_witness :
    book_restaurant { cityMappings := [], availableCities := [], availableCuisines := [] }
        (some "Delmonico") (some "9:00 PM") (.i 4) (some "Ada") (some "555") none
        ⟨[{ rid := 3, name := "Delmonico", city := "New York", address := "56 Beaver St",
            cuisine := "steakhouse", seating_capacity := 80, available_capacity := 10,
            available_reservations := ["7:00 PM", "8:00 PM", "7:00 PM"],
            mood := "sophisticated" }], []⟩ =
      (.unavailable_time ["7:00 PM", "8:00 PM", "7:00 PM"],
       ⟨[{ rid := 3, name := "Delmonico", city := "New York", address := "56 Beaver St",
           cuisine := "steakhouse", seating_capacity := 80, available_capacity := 10,
           available_reservations := ["7:00 PM", "8:00 PM", "7:00 PM"],
           mood := "sophisticated" }], []⟩) ∧
    book_restaurant { cityMappings := [], availableCities := [], availableCuisines := [] }
        (some "Delmonico") (some "7:00 PM") (.i 40) (some "Ada") (some "555") none
        ⟨[{ rid := 3, name := "Delmonico", city := "New York", address := "56 Beaver St",
            cuisine := "steakhouse", seating_capacity := 80, available_capacity := 10,
            available_reservations := ["7:00 PM", "8:00 PM", "7:00 PM"],
            mood := "sophisticated" }], []⟩ =
      (.insufficient_capacity 10 40,
       ⟨[{ rid := 3, name := "Delmonico", city := "New York", address := "56 Beaver St",
           cuisine := "steakhouse", seating_capacity := 80, available_capacity := 10,
           available_reservations := ["7:00 PM", "8:00 PM", "7:00 PM"],
           mood := "sophisticated" }], []⟩) ∧
    (["7:00 PM", "8:00 PM", "7:00 PM"].erase "7:00 PM").count "7:00 PM" + 1 =
      (["7:00 PM", "8:00 PM", "7:00 PM"] : List String).count "7:00 PM" := by
  refine ⟨?_, ?_, ?_⟩
  · exact (booking_roundtrip
      { cityMappings := [], availableCities := [], availableCuisines := [] }
      { rid := 3, name := "Delmonico", city := "New York", address := "56 Beaver St",
        cuisine := "steakhouse", seating_capacity := 80, available_capacity := 10,
        available_reservations := ["7:00 PM", "8:00 PM", "7:00 PM"],
        mood := "sophisticated" } [] "9:00 PM" 4 "Ada" "555"
      (by decide) (by decide) (by decide) (by decide) (by decide)).2.1 (by decide)
  · exact (booking_roundtrip
      { cityMappings := [], availableCities := [], availableCuisines := [] }
      { rid := 3, name := "Delmonico", city := "New York", address := "56 Beaver St",
        cuisine := "steakhouse", seating_capacity := 80, available_capacity := 10,
        available_reservations := ["7:00 PM", "8:00 PM", "7:00 PM"],
        mood := "sophisticated" } [] "7:00 PM" 40 "Ada" "555"
      (by decide) (by decide) (by decide) (by decide) (by decide)).2.2 (by decide) (by decide)
  · exact ((booking_roundtrip
      { cityMappings := [], availableCities := [], availableCuisines := [] }
      { rid := 3, name := "Delmonico", city := "New York", address := "56 Beaver St",
        cuisine := "steakhouse", seating_capacity := 80, available_capacity := 10,
        available_reservations := ["7:00 PM", "8:00 PM", "7:00 PM"],
        mood := "sophisticated" } [] "7:00 PM" 4 "Ada" "555"
      (by decide) (by decide) (by decide) (by decide) (by decide)).1 1
      { restaurants :=
          [{ rid := 3, name := "Delmonico", city := "New York", address := "56 Beaver St",
             cuisine := "steakhouse", seating_capacity := 80, available_capacity := 6,
             available_reservations := ["8:00 PM", "7:00 PM"], mood := "sophisticated" }]
      , reservations :=
          [{ customer_name := "Ada", contact_number := "555", party_size := 4,
             reservation_time := "7:00 PM" }] } (by decide)).2.2.1

/-! ## C5 — unresolved city terminates early -/

/-- C5: when the group size coerces (the coercion precedes the city check)
and no usable city resolves, the tool returns `insufficient_info` with a
sorted candidate list of at most 10 cities, executes no restaurant query
(the query trace is empty), performs no relaxation, and carries no
derived mood. -/
theorem insufficient_info_early_return (cat : Catalog) (db : List Restaurant)
    (city occasion cuisine_preference : Option String) (group_size : AVal)
    (hgs : ∀ v, group_size = AVal.s v → pyInt v ≠ none)
    (hcity : optTruthy (recNCity cat city) = false) :
    get_recommendations cat db city occasion cuisine_preference group_size =
      (.insufficient_info "Please specify a city for restaurant recommendations"
        ((sortedStrings cat.availableCities).take 10), []) ∧
    ((sortedStrings cat.availableCities).take 10).Sorted (fun a b => strLeB a b = true) ∧
    ((sortedStrings cat.availableCities).take 10).length ≤ 10 := by
  refine ⟨?_, ?_, List.length_take_le _ _⟩
  · cases group_size with
    | non => simp [get_recommendations, recWithGS, hcity]
    | i n => simp [get_recommendations, recWithGS, hcity]
    | s v =>
      cases hpy : pyInt v with
      | none => exact absurd hpy (hgs v rfl)
      | some n => simp [get_recommendations, recWithGS, hpy, hcity]
  · exact (sortedStrings_sorted cat.availableCities).sublist
      (List.take_sublist 10 (sortedStrings cat.availableCities))

/-- C5 (witness): no city given, two catalog cities: the tool answers
`insufficient_info` with the sorted pair and runs no query. -/
theorem insufficient_info_early_return_witness :
    get_recommendations
        { cityMappings := [("chicago", "chicago"), ("boston", "boston")]
        , availableCities := ["chicago", "boston"], availableCuisines := [] }
        [] none (some "date night") (some "thai") (AVal.i 2) =
      (.insufficient_info "Please specify a city for restaurant recommendations"
        ["boston", "chicago"], []) := by
  have h := (insufficient_info_early_return
    { cityMappings := [("chicago", "chicago"), ("boston", "boston")]
    , availableCities := ["chicago", "boston"], availableCuisines := [] }
    [] none (some "date night") (some "thai") (AVal.i 2)
    (fun v hv => AVal.noConfusion hv) (by decide)).1
  rw [h]
  rfl

/-! ## C1 — three-pass stable-sort ranking -/

theorem sortDescBy_congr_zero (key : α → Nat) (h : ∀ x, key x = 0) (l : List α) :
    sortDescBy key l = l := by
  have hk : key = fun _ => 0 := funext h
  rw [hk, sortDescBy_const_zero]

/-- C1: the ranking of a non-empty result list equals the composition of
the three sequential stable sorts — slot count descending, then
mood-match descending, then cuisine-match descending (a missing mood or
cuisine makes its flag constantly false, so that pass is the identity) —
and on the claim's instance with slot counts `[2, 5, 3]`, mood flags
`[false, true, false]` and cuisine flags `[true, false, false]`, the
cuisine-matching restaurant is ranked first. -/
theorem rank_three_stable_sorts :
    (∀ (mood cuisine : Option String) (l : List Restaurant),
        mood ≠ some "" → cuisine ≠ some "" → l ≠ [] →
        rankResults mood cuisine l = threePassRank mood cuisine l) ∧
    [exA, exB, exC].map (fun r => r.available_reservations.length) = [2, 5, 3] ∧
    [exA, exB, exC].map (moodFlag (some "romantic")) = [false, true, false] ∧
    [exA, exB, exC].map (cuisineFlag (some "italian")) = [true, false, false] ∧
    rankResults (some "romantic") (some "italian") [exA, exB, exC] = [exA, exB, exC] ∧
    (rankResults (some "romantic") (some "italian") [exA, exB, exC]).head? = some exA := by
  refine ⟨?_, by decide, by decide, by decide, by decide, by decide⟩
  intro mood cuisine l hm hc hl
  have hifE : l.isEmpty = false := by
    cases l
    · exact absurd rfl hl
    · rfl
  simp only [rankResults, threePassRank, hifE, Bool.false_eq_true, if_false]
  cases mood with
  | none =>
    cases cuisine with
    | none =>
      dsimp only
      rw [sortDescBy_congr_zero (fun r => boolKey (moodFlag none r)) (fun _ => rfl),
        sortDescBy_congr_zero (fun r => boolKey (cuisineFlag none r)) (fun _ => rfl)]
    | some c =>
      have hcne : c ≠ "" := fun h => hc (by rw [h])
      dsimp only
      rw [if_pos hcne,
        sortDescBy_congr_zero (fun r => boolKey (moodFlag none r)) (fun _ => rfl)]
      rfl
  | some m =>
    have hmne : m ≠ "" := fun h => hm (by rw [h])
    cases cuisine with
    | none =>
      dsimp only
      rw [if_pos hmne,
        sortDescBy_congr_zero (fun r => boolKey (cuisineFlag none r)) (fun _ => rfl)]
      rfl
    | some c =>
      have hcne : c ≠ "" := fun h => hc (by rw [h])
      dsimp only
      rw [if_pos hmne, if_pos hcne]
      rfl

/-- C1 (witness): the general equality applied to the claim's instance:
the conditional ranking and the unconditional three-pass composition
agree there, and both put the cuisine-matching restaurant first. -/
theorem rank_three_stable_sorts_witness :
    rankResults (some "romantic") (some "italian") [exA, exB, exC] =
      threePassRank (some "romantic") (some "italian") [exA, exB, exC] ∧
    threePassRank (some "romantic") (some "italian") [exA, exB, exC] = [exA, exB, exC] := by
  constructor
  · exact rank_three_stable_sorts.1 (some "romantic") (some "italian") [exA, exB, exC]
      (by decide) (by decide) (by decide)
  · decide

/-! ## C2 — the relaxation cascade -/

/-- C2 (counterexample): a query inside the claim's scope — resolved city
`chicago`, derived mood `casual` (occasion `family dinner`), normalized
cuisine `casual`, full query empty — on which the engine does **not**
relax mood → cuisine → city-only: because the relaxation filters the SQL
parameter list by value (`p != mood`), the cuisine parameter equal to
the mood string is dropped too, the driver raises, and the tool returns
a bare error after the `noMood` attempt, never reaching the city-only
level or its fallback metadata. -/
theorem relaxation_order_counterexample :
    optTruthy (recNCity catCX (some "chicago")) = true ∧
    recMood (some "family dinner") = some "casual" ∧
    recNCuisine catCX (some "casual") = some "casual" ∧
    execQuery [rCX]
        ((recBase (some 2) (some "chicago") (some "casual") (some "casual")).map Prod.fst)
        ((recBase (some 2) (some "chicago") (some "casual") (some "casual")).map Prod.snd) =
      some [] ∧
    get_recommendations catCX [rCX] (some "chicago") (some "family dinner") (some "casual")
        (AVal.i 2) = (.err dbErrMsg, [QueryLevel.full, QueryLevel.noMood]) ∧
    QueryLevel.cityOnly ∉
      (get_recommendations catCX [rCX] (some "chicago") (some "family dinner") (some "casual")
        (AVal.i 2)).2 := by
  refine ⟨?_, ?_, ?_, ?_, ?_, ?_⟩ <;> decide

theorem optTruthy_iff (o : Option String) :
    optTruthy o = true ↔ ∃ x, o = some x ∧ x ≠ "" := by
  cases o <;> simp [optTruthy]

theorem zip_map_fst_snd (b : List (α × β)) :
    (b.map Prod.fst).zip (b.map Prod.snd) = b := by
  induction b with
  | nil => rfl
  | cons x xs ih => simp [ih]

theorem execQuery_of_pairs (db : List Restaurant) (b : List (Clause × AVal))
    (hwt : ∀ cp ∈ b, clauseWellTyped cp.1 cp.2 = true) :
    execQuery db (b.map Prod.fst) (b.map Prod.snd) =
      some (db.filter (fun r => b.all (fun cp => clauseHolds r cp.1 cp.2))) := by
  unfold execQuery
  rw [zip_map_fst_snd, if_pos]
  simp only [List.length_map, beq_self_eq_true, Bool.true_and, List.all_eq_true]
  exact hwt

theorem execQuery_filter_pairs (db : List Restaurant) (b : List (Clause × AVal))
    (pc : Clause → Bool) (pp : AVal → Bool)
    (hcong : ∀ cp ∈ b, pc cp.1 = pp cp.2)
    (hwt : ∀ cp ∈ b, clauseWellTyped cp.1 cp.2 = true) :
    execQuery db ((b.map Prod.fst).filter pc) ((b.map Prod.snd).filter pp) =
      some (db.filter (fun r => (b.filter (fun cp => pc cp.1)).all
        (fun cp => clauseHolds r cp.1 cp.2))) := by
  have h1 : (b.map Prod.fst).filter pc = (b.filter (fun cp => pc cp.1)).map Prod.fst := by
    rw [List.filter_map]
    rfl
  have h2 : (b.map Prod.snd).filter pp = (b.filter (fun cp => pc cp.1)).map Prod.snd := by
    rw [List.filter_map]
    congr 1
    exact List.filter_congr (fun cp hcp => by
      simpa [Function.comp] using (hcong cp hcp).symm)
  rw [h1, h2, execQuery_of_pairs]
  intro cp hcp
  exact hwt cp (List.mem_of_mem_filter hcp)

theorem recBase_mem (gs : Option Int) (a b m : Option String) (cp : Clause × AVal)
    (h : cp ∈ recBase gs a b m) :
    (∃ n, gs = some n ∧ cp = (Clause.capGE, AVal.i n)) ∨
    (∃ x, a = some x ∧ x ≠ "" ∧ cp = (Clause.cityEq, AVal.s x)) ∨
    (∃ x, b = some x ∧ x ≠ "" ∧ cp = (Clause.cuisineEq, AVal.s x)) ∨
    (∃ x, m = some x ∧ x ≠ "" ∧ cp = (Clause.moodEq, AVal.s x)) := by
  unfold recBase at h
  rcases List.mem_append.mp h with h1 | hMood
  · rcases List.mem_append.mp h1 with h2 | hCui
    · rcases List.mem_append.mp h2 with hGs | hCity
      · left
        cases gs with
        | none => cases hGs
        | some n =>
          refine ⟨n, rfl, ?_⟩
          simpa using hGs
      · right; left
        unfold optPair at hCity
        cases a with
        | none => cases hCity
        | some x =>
          dsimp only at hCity
          by_cases hx : x = ""
          · rw [if_neg (by simp [hx])] at hCity
            cases hCity
          · rw [if_pos hx] at hCity
            exact ⟨x, rfl, hx, by simpa using hCity⟩
    · right; right; left
      unfold optPair at hCui
      cases b with
      | none => cases hCui
      | some x =>
        dsimp only at hCui
        by_cases hx : x = ""
        · rw [if_neg (by simp [hx])] at hCui
          cases hCui
        · rw [if_pos hx] at hCui
          exact ⟨x, rfl, hx, by simpa using hCui⟩
  · right; right; right
    unfold optPair at hMood
    cases m with
    | none => cases hMood
    | some x =>
      dsimp only at hMood
      by_cases hx : x = ""
      · rw [if_neg (by simp [hx])] at hMood
        cases hMood
      · rw [if_pos hx] at hMood
        exact ⟨x, rfl, hx, by simpa using hMood⟩

theorem recBase_wellTyped (gs : Option Int) (a b m : Option String) :
    ∀ cp ∈ recBase gs a b m, clauseWellTyped cp.1 cp.2 = true := by
  intro cp h
  rcases recBase_mem gs a b m cp h with
    ⟨n, _, rfl⟩ | ⟨x, _, _, rfl⟩ | ⟨x, _, _, rfl⟩ | ⟨x, _, _, rfl⟩ <;> rfl

theorem insertDescBy_length (key : α → Nat) (x : α) (l : List α) :
    (insertDescBy key x l).length = l.length + 1 := by
  induction l with
  | nil => rfl
  | cons y ys ih =>
    unfold insertDescBy
    split
    · rfl
    · simp [ih]

theorem sortDescBy_length (key : α → Nat) (l : List α) :
    (sortDescBy key l).length = l.length := by
  induction l with
  | nil => rfl
  | cons x xs ih => simp [sortDescBy, insertDescBy_length, ih]

theorem rankResults_length (mood cuisine : Option String) (l : List Restaurant) :
    (rankResults mood cuisine l).length = l.length := by
  unfold rankResults
  split
  · rfl
  · cases mood with
    | none =>
      cases cuisine with
      | none => simp [sortDescBy_length]
      | some c => by_cases hc : c = "" <;> simp [hc, sortDescBy_length]
    | some m =>
      cases cuisine with
      | none => by_cases hm : m = "" <;> simp [hm, sortDescBy_length]
      | some c =>
        by_cases hm : m = "" <;> by_cases hc : c = "" <;>
          simp [hm, hc, sortDescBy_length]

theorem recAssemble_spec (db : List Restaurant) (ncity ncuisine mood : Option String)
    (rows2 : List Restaurant) (tr : List QueryLevel) (htc : optTruthy ncity = true) :
    recAssemble db ncity ncuisine mood rows2 tr =
      (if rows2.isEmpty then
        (.ok { status := "no_results", count := 0, derived_mood := mood
             , normalized_city := ncity, normalized_cuisine := ncuisine
             , fallback_suggestions := some
                 (cityCuisines (db.filter
                    (fun r => strLower r.city == strLower (ncity.getD ""))),
                  (db.filter (fun r => strLower r.city == strLower (ncity.getD ""))).length)
             , data := [] }, tr ++ [QueryLevel.cityOnly])
      else
        (.ok { status := "success"
             , count := (rankResults mood ncuisine rows2).length
             , derived_mood := mood, normalized_city := ncity
             , normalized_cuisine := ncuisine
             , fallback_suggestions := none
             , data := (rankResults mood ncuisine rows2).take 5 }, tr)) := by
  cases rows2 with
  | nil => simp [recAssemble, rankResults, htc]
  | cons r rs =>
    have hne : (rankResults mood ncuisine (r :: rs)).isEmpty = false := by
      have hl := rankResults_length mood ncuisine (r :: rs)
      cases hrr : rankResults mood ncuisine (r :: rs) with
      | nil => rw [hrr] at hl; simp at hl
      | cons a as => rfl
    simp [recAssemble, htc, hne]

theorem recAfterMood_spec (db : List Restaurant) (gs : Option Int)
    (ncity ncuisine mood : Option String)
    (htc : optTruthy ncity = true)
    (hd1 : ∀ m nc, mood = some m → ncity = some nc → m ≠ nc)
    (hd3 : ∀ cu nc, ncuisine = some cu → ncity = some nc → cu ≠ nc)
    (rows1 : List Restaurant) (tr : List QueryLevel) :
    recAfterMood db ncity ncuisine mood
        ((recBase gs ncity ncuisine mood).map Prod.fst)
        ((recBase gs ncity ncuisine mood).map Prod.snd) rows1 tr =
      relaxationTailSpec db ncity ncuisine mood (recBase gs ncity ncuisine mood) rows1 tr := by
  unfold recAfterMood relaxationTailSpec
  by_cases hcond : (rows1.isEmpty && optTruthy ncuisine) = true
  · have hcuT : optTruthy ncuisine = true := by
      have := hcond
      simp only [Bool.and_eq_true] at this
      exact this.2
    rcases (optTruthy_iff ncuisine).mp hcuT with ⟨cu, hcu, hcune⟩
    rw [if_pos hcond, if_pos hcond]
    by_cases hM : optTruthy mood = true
    · rcases (optTruthy_iff mood).mp hM with ⟨m, hm, hmne⟩
      simp only [hM, if_true]
      rw [execQuery_filter_pairs db (recBase gs ncity ncuisine mood)
        (fun c => c ≠ Clause.cuisineEq && c ≠ Clause.moodEq)
        (fun p => p ≠ AVal.s (mood.getD "") && p ≠ AVal.s (ncuisine.getD ""))
        ?hcong (recBase_wellTyped gs ncity ncuisine mood)]
      case hcong =>
        intro cp hcp
        rcases recBase_mem gs ncity ncuisine mood cp hcp with
          ⟨n, hgs, rfl⟩ | ⟨x, hx, hxne, rfl⟩ | ⟨x, hx, hxne, rfl⟩ | ⟨x, hx, hxne, rfl⟩
        · simp
        · have hxm : x ≠ m := Ne.symm (hd1 m x hm hx)
          have hxc : x ≠ cu := Ne.symm (hd3 cu x hcu hx)
          simp [hm, hcu, hxm, hxc]
        · have hxc : x = cu := by
            rw [hx] at hcu
            exact Option.some.inj hcu
          simp [hm, hcu, hxc]
        · have hxm : x = m := by
            rw [hx] at hm
            exact Option.some.inj hm
          simp [hm, hxm]
      · dsimp only
        exact recAssemble_spec db ncity ncuisine mood _ _ htc
    · have hMf : optTruthy mood = false := by
        revert hM
        cases optTruthy mood <;> simp
      simp only [hMf, if_false, Bool.false_eq_true]
      rw [execQuery_filter_pairs db (recBase gs ncity ncuisine mood)
        (fun c => c ≠ Clause.cuisineEq)
        (fun p => p ≠ AVal.s (ncuisine.getD ""))
        ?hcong2 (recBase_wellTyped gs ncity ncuisine mood)]
      case hcong2 =>
        intro cp hcp
        rcases recBase_mem gs ncity ncuisine mood cp hcp with
          ⟨n, hgs, rfl⟩ | ⟨x, hx, hxne, rfl⟩ | ⟨x, hx, hxne, rfl⟩ | ⟨x, hx, hxne, rfl⟩
        · simp
        · have hxc : x ≠ cu := Ne.symm (hd3 cu x hcu hx)
          simp [hcu, hxc]
        · have hxc : x = cu := by
            rw [hx] at hcu
            exact Option.some.inj hcu
          simp [hcu, hxc]
        · rw [hx] at hMf
          simp [optTruthy, hxne] at hMf
      · dsimp only
        exact recAssemble_spec db ncity ncuisine mood _ _ htc
  · rw [if_neg hcond, if_neg hcond]
    dsimp only
    exact recAssemble_spec db ncity ncuisine mood rows1 tr htc

theorem assemble_shape_fallback (ncity ncuisine mood : Option String)
    (fbData : List String × Nat) (rows2 : List Restaurant) (tr : List QueryLevel)
    (htr : QueryLevel.cityOnly ∉ tr) :
    ∀ res tr2 o,
      (if rows2.isEmpty then
        (RecResult.ok
           { status := "no_results", count := 0, derived_mood := mood
           , normalized_city := ncity, normalized_cuisine := ncuisine
           , fallback_suggestions := some fbData, data := [] },
         tr ++ [QueryLevel.cityOnly])
      else
        (RecResult.ok
           { status := "success"
           , count := (rankResults mood ncuisine rows2).length
           , derived_mood := mood, normalized_city := ncity
           , normalized_cuisine := ncuisine
           , fallback_suggestions := none
           , data := (rankResults mood ncuisine rows2).take 5 }, tr)) = (res, tr2) →
      res = RecResult.ok o →
      (o.fallback_suggestions ≠ none ↔ QueryLevel.cityOnly ∈ tr2) := by
  intro res tr2 o heq ho
  cases rows2 with
  | nil =>
    simp only [List.isEmpty_nil, if_true] at heq
    cases heq
    cases ho
    simp
  | cons r rs =>
    simp only [List.isEmpty_cons, Bool.false_eq_true, if_false] at heq
    cases heq
    cases ho
    simp only [ne_eq, not_true_eq_false, false_iff]
    exact htr

theorem relaxationTailSpec_fallback (db : List Restaurant)
    (ncity ncuisine mood : Option String) (base : List (Clause × AVal))
    (rows1 : List Restaurant) (tr1 : List QueryLevel)
    (htr : QueryLevel.cityOnly ∉ tr1) :
    ∀ res tr2 o, relaxationTailSpec db ncity ncuisine mood base rows1 tr1 = (res, tr2) →
      res = RecResult.ok o →
      (o.fallback_suggestions ≠ none ↔ QueryLevel.cityOnly ∈ tr2) := by
  intro res tr2 o heq ho
  unfold relaxationTailSpec at heq
  dsimp only at heq
  by_cases hcond : (rows1.isEmpty && optTruthy ncuisine) = true
  · simp only [hcond, if_true] at heq
    refine assemble_shape_fallback ncity ncuisine mood _ _ _ ?_ res tr2 o heq ho
    intro hmem
    rcases List.mem_append.mp hmem with h1 | h1
    · exact htr h1
    · simp at h1
  · have hf : (rows1.isEmpty && optTruthy ncuisine) = false := by
      revert hcond
      cases rows1.isEmpty && optTruthy ncuisine <;> simp
    simp only [hf, Bool.false_eq_true, if_false] at heq
    exact assemble_shape_fallback ncity ncuisine mood _ _ _ htr res tr2 o heq ho

/-- C2 (amended): for every recommendation query with a resolved city,
**provided the derived mood string, the normalized cuisine and the
normalized city are pairwise distinct** (otherwise the by-value
parameter filtering breaks the re-run and the engine returns an error,
see the counterexample): the fully constrained query runs as built; and
when it returns no rows the engine relaxes exactly as the claim says —
drop only mood (if derived), then cuisine-and-mood (if a cuisine was
given), then the city-only query whose response carries the fallback
metadata (the sorted cuisine set and restaurant count of the city) —
with the presence of that metadata reporting that the city-only level
produced the result. -/
theorem relaxation_order_amended (db : List Restaurant) (gs : Option Int)
    (ncity ncuisine mood : Option String)
    (htc : optTruthy ncity = true)
    (hd1 : ∀ m nc, mood = some m → ncity = some nc → m ≠ nc)
    (hd2 : ∀ m cu, mood = some m → ncuisine = some cu → m ≠ cu)
    (hd3 : ∀ cu nc, ncuisine = some cu → ncity = some nc → cu ≠ nc) :
    execQuery db ((recBase gs ncity ncuisine mood).map Prod.fst)
        ((recBase gs ncity ncuisine mood).map Prod.snd) =
      some (db.filter (fun r => (recBase gs ncity ncuisine mood).all
        (fun cp => clauseHolds r cp.1 cp.2))) ∧
    recAfterFull db ncity ncuisine mood
        ((recBase gs ncity ncuisine mood).map Prod.fst)
        ((recBase gs ncity ncuisine mood).map Prod.snd) [] =
      relaxationCascadeSpec db ncity ncuisine mood (recBase gs ncity ncuisine mood) ∧
    (∀ cat city occasion cuisine_preference,
      recNCity cat city = ncity → recNCuisine cat cuisine_preference = ncuisine →
      recMood occasion = mood →
      db.filter (fun r => (recBase gs ncity ncuisine mood).all
        (fun cp => clauseHolds r cp.1 cp.2)) = [] →
      recWithGS cat db city occasion cuisine_preference gs =
        relaxationCascadeSpec db ncity ncuisine mood (recBase gs ncity ncuisine mood)) ∧
    (∀ res tr2 o,
      relaxationCascadeSpec db ncity ncuisine mood (recBase gs ncity ncuisine mood) =
        (res, tr2) →
      res = RecResult.ok o →
      (o.fallback_suggestions ≠ none ↔ QueryLevel.cityOnly ∈ tr2)) := by
  have hfull : execQuery db ((recBase gs ncity ncuisine mood).map Prod.fst)
      ((recBase gs ncity ncuisine mood).map Prod.snd) =
      some (db.filter (fun r => (recBase gs ncity ncuisine mood).all
        (fun cp => clauseHolds r cp.1 cp.2))) :=
    execQuery_of_pairs db _ (recBase_wellTyped gs ncity ncuisine mood)
  have hcascade : recAfterFull db ncity ncuisine mood
      ((recBase gs ncity ncuisine mood).map Prod.fst)
      ((recBase gs ncity ncuisine mood).map Prod.snd) [] =
      relaxationCascadeSpec db ncity ncuisine mood (recBase gs ncity ncuisine mood) := by
    unfold recAfterFull relaxationCascadeSpec
    by_cases hM : optTruthy mood = true
    · rcases (optTruthy_iff mood).mp hM with ⟨m, hm, hmne⟩
      rw [if_pos (by simp [hM])]
      rw [execQuery_filter_pairs db (recBase gs ncity ncuisine mood)
        (fun c => c ≠ Clause.moodEq) (fun p => p ≠ AVal.s (mood.getD ""))
        ?hcg (recBase_wellTyped gs ncity ncuisine mood)]
      case hcg =>
        intro cp hcp
        rcases recBase_mem gs ncity ncuisine mood cp hcp with
          ⟨n, hgs, rfl⟩ | ⟨x, hx, hxne, rfl⟩ | ⟨x, hx, hxne, rfl⟩ | ⟨x, hx, hxne, rfl⟩
        · simp
        · have hxm : x ≠ m := Ne.symm (hd1 m x hm hx)
          simp [hm, hxm]
        · have hxm : x ≠ m := Ne.symm (hd2 m x hm hx)
          simp [hm, hxm]
        · have hxm : x = m := by
            rw [hx] at hm
            exact Option.some.inj hm
          simp [hm, hxm]
      · dsimp only
        simp only [hM, if_true]
        exact recAfterMood_spec db gs ncity ncuisine mood htc hd1 hd3 _ _
    · have hMf : optTruthy mood = false := by
        revert hM
        cases optTruthy mood <;> simp
      rw [if_neg (by simp [hMf])]
      simp only [hMf, Bool.false_eq_true, if_false]
      exact recAfterMood_spec db gs ncity ncuisine mood htc hd1 hd3 [] [QueryLevel.full]
  refine ⟨hfull, hcascade, ?_, ?_⟩
  · intro cat city occasion cuisine_preference hc1 hc2 hc3 hempty
    unfold recWithGS
    rw [hc1, hc2, hc3]
    rw [if_neg (by simp [htc])]
    dsimp only
    rw [hfull, hempty]
    exact hcascade
  · intro res tr2 o heq ho
    unfold relaxationCascadeSpec at heq
    refine relaxationTailSpec_fallback db ncity ncuisine mood _ _ _ ?_ res tr2 o heq ho
    cases optTruthy mood <;> simp

/-- C2 (witness): a large party in Chicago wanting Mexican food on a date
night, against a catalog where mood, cuisine and city strings are
pairwise distinct: the engine runs all four levels in order and the
final response carries the city's cuisine set and restaurant count. -/
theorem relaxation_order_amended_witness :
    recWithGS catCX [rCX] (some "chicago") (some "date night") (some "mexican")
        (some 10) =
      (RecResult.ok
         { status := "no_results", count := 0, derived_mood := some "romantic"
         , normalized_city := some "chicago", normalized_cuisine := some "mexican"
         , fallback_suggestions := some (["italian"], 1)
         , data := [] },
       [QueryLevel.full, QueryLevel.noMood, QueryLevel.noCuisine, QueryLevel.cityOnly]) := by
  have h := (relaxation_order_amended [rCX] (some 10) (some "chicago") (some "mexican")
    (some "romantic")
    (by decide)
    (by intro m nc hm hnc; cases hm; cases hnc; decide)
    (by intro m cu hm hcu; cases hm; cases hcu; decide)
    (by intro cu nc hcu hnc; cases hcu; cases hnc; decide)).2.2.1
    catCX (some "chicago") (some "date night") (some "mexican")
    (by decide) (by decide) (by decide) (by decide)
  rw [h]
  decide

end FoodieSpot
